import Mathlib

/-!
# The streaming bridge of the Clouds module (`src/Clouds.cpp`)

`Clouds::step` is called once per host audio tick.  It queues one host frame,
latches the trigger gate, renders one 32-frame engine block whenever the output
ring buffer has run empty, and pops one frame to the host outputs.

Conventions of the embedding:

* C `float` samples and control values are rationals (`ℚ`); infinities and NaN
  are outside the model.  The one place where the rounding of `float`
  arithmetic changes an integer result, the narrowing of `sample * 32767.0` to
  the `float` argument of `clampf` (lines 103-104), is modelled by `toFloat`;
  elsewhere the arithmetic is exact.
* The ring buffer, the sample-rate converter, `clampf` and the granular engine
  live in headers that are not part of the sources; the ring buffer, the
  converter wrapper and `clampf` follow the specification, the resampling
  kernel and the engine are parameters of `step`.
* A ring-buffer operation used outside its contract gives an error value, so
  that "the error cannot occur" is a statement about the result of `step`.
-/

namespace AudibleInstruments

/-! ## Data model -/

/-- The type `Frame<2>`: one stereo frame of floating samples, `samples[0]` and `samples[1]`. -/
structure Frame where
  samples0 : ℚ
  samples1 : ℚ
deriving DecidableEq, Repr

/-- The type `clouds::ShortFrame`: one stereo frame of the engine's 16-bit samples. -/
structure ShortFrame where
  l : Int
  r : Int
deriving DecidableEq, Repr

/-- The fields of `clouds::Parameters` that `Clouds::step` writes. -/
structure Parameters where
  trigger : Bool
  freeze : Bool
  position : ℚ
  size : ℚ
  pitch : ℚ
  density : ℚ
  texture : ℚ
  dry_wet : ℚ
  stereo_spread : ℚ
  feedback : ℚ
  reverb : ℚ
deriving DecidableEq, Repr

/-- The contract violations of section 7 of the specification, together with a
write past the end of a fixed-size array (`Frame<2> inputFrames[32]`). -/
inductive BridgeError where
  | CapacityExceeded
  | Underrun
  | OutOfBounds
deriving DecidableEq, Repr

/-- Results of the bridge operations are compared by evaluation. -/
instance instDecidableEqExcept {ε α : Type} [DecidableEq ε] [DecidableEq α] :
    DecidableEq (Except ε α)
  | .ok a, .ok b => if h : a = b then isTrue (by rw [h]) else isFalse (by intro e; cases e; exact h rfl)
  | .error a, .error b =>
    if h : a = b then isTrue (by rw [h]) else isFalse (by intro e; cases e; exact h rfl)
  | .ok _, .error _ => isFalse (by intro e; cases e)
  | .error _, .ok _ => isFalse (by intro e; cases e)

/-! ## Ring buffer -/

/-- Modelled from the spec: `DoubleRingBuffer<Frame<2>, 256>` is declared in
`dsp.hpp`, which is not among the sources.  It is the bounded FIFO of section
4.1: `frames` are the logically valid frames, oldest first, and `start` is the
read cursor, the number of frames consumed so far (the write cursor is
`start + frames.length`). -/
structure DoubleRingBuffer where
  frames : List Frame
  start : Nat
deriving DecidableEq, Repr

namespace DoubleRingBuffer

/-- The template argument `S` of both buffers of the module. -/
def S : Nat := 256

/-- Modelled from the spec: the buffer a default-constructed module holds. -/
def new : DoubleRingBuffer := ⟨[], 0⟩

/-- Modelled from the spec: `size()`. -/
def size (b : DoubleRingBuffer) : Nat := b.frames.length

/-- Modelled from the spec: `empty()`, the pre-check of `shift`. -/
def empty (b : DoubleRingBuffer) : Bool := b.size == 0

/-- Modelled from the spec: `full()`, the pre-check of `push` (size has reached
the capacity). -/
def full (b : DoubleRingBuffer) : Bool := decide (S ≤ b.size)

/-- Modelled from the spec: `capacity()`, the remaining free capacity that the
output conversion offers to the converter. -/
def capacity (b : DoubleRingBuffer) : Nat := S - b.size

/-- Modelled from the spec: `push(frame)` fails with CapacityExceeded on a full
buffer and otherwise appends the frame at the write cursor. -/
def push (b : DoubleRingBuffer) (f : Frame) : Except BridgeError DoubleRingBuffer :=
  if S ≤ b.size then .error .CapacityExceeded
  else .ok { b with frames := b.frames ++ [f] }

/-- Modelled from the spec: `shift()` fails on an empty buffer and otherwise
removes and returns the oldest frame, advancing the read cursor by one. -/
def shift (b : DoubleRingBuffer) : Except BridgeError (Frame × DoubleRingBuffer) :=
  match b.frames with
  | [] => .error .Underrun
  | f :: fs => .ok (f, ⟨fs, b.start + 1⟩)

/-- Modelled from the spec: `startData()`, the read view of the valid frames. -/
def startData (b : DoubleRingBuffer) : List Frame := b.frames

/-- Modelled from the spec: `startIncr(n)` advances the read cursor by `n`,
discarding the consumed frames; more than `size()` frames cannot be consumed. -/
def startIncr (b : DoubleRingBuffer) (n : Nat) : Except BridgeError DoubleRingBuffer :=
  if n ≤ b.size then .ok ⟨b.frames.drop n, b.start + n⟩
  else .error .Underrun

/-- Modelled from the spec: `endIncr(n)` advances the write cursor by `n`,
committing the first `n` frames written through the `endData()` view; more
than the free capacity cannot be committed. -/
def endIncr (b : DoubleRingBuffer) (written : List Frame) (n : Nat) :
    Except BridgeError DoubleRingBuffer :=
  if n ≤ b.capacity then .ok { b with frames := b.frames ++ written.take n }
  else .error .CapacityExceeded

end DoubleRingBuffer

/-! ## Sample-rate converter -/

/-- The resampling kernel behind `SampleRateConverter<2>::process`: from the
filter state, the ratio, the frames offered and the output capacity offered it
gives the new filter state, the number of frames consumed and the frames
produced. -/
abbrev Resampler (σ : Type) := σ → ℚ → List Frame → Nat → σ × Nat × List Frame

/-- The contract of section 4.2: a kernel reads no more frames than offered
and writes no more frames than the capacity offered. -/
def Resampler.Contract {σ : Type} (K : Resampler σ) : Prop :=
  ∀ st r inp cap, (K st r inp cap).2.1 ≤ inp.length ∧ (K st r inp cap).2.2.length ≤ cap

/-- Modelled from the spec: `SampleRateConverter<2>` is declared in `dsp.hpp`,
which is not among the sources.  It holds the current ratio and the filter
state. -/
structure SampleRateConverter (σ : Type) where
  ratio : ℚ
  state : σ
deriving DecidableEq, Repr

namespace SampleRateConverter

/-- Modelled from the spec: `setRatio(r)` takes effect at once and keeps the
filter state; a non-positive ratio is rejected and the previous one retained. -/
def setRatio {σ : Type} (c : SampleRateConverter σ) (r : ℚ) : SampleRateConverter σ :=
  if 0 < r then { c with ratio := r } else c

/-- Modelled from the spec: `process(in, &inLen, out, &outLen)` offers the first
`inLen` frames of `inp` and room for `outLen` frames; it gives the converter
after the call, the count consumed (written back to `inLen`) and the frames
written to `out` (their number is written back to `outLen`). -/
def process {σ : Type} (K : Resampler σ) (c : SampleRateConverter σ) (inp : List Frame)
    (inLen outLen : Nat) : SampleRateConverter σ × Nat × List Frame :=
  let res := K c.state c.ratio (inp.take inLen) outLen
  ({ c with state := res.1 }, res.2.1, res.2.2)

end SampleRateConverter

/-- Modelled from the spec: the converter of section 4.2 as a phase
accumulator.  The state is the fractional phase; each consumed frame advances
the phase by the ratio and yields one output frame (a copy of it) per whole
unit.  A frame is consumed only while its output still fits the capacity
offered, so the output count is the largest derivable from the consumed input,
and the fractional remainder carries to the next call. -/
def phaseResampler : ℚ → ℚ → List Frame → Nat → ℚ × Nat × List Frame
  | ph, _, [], _ => (ph, 0, [])
  | ph, r, f :: fs, cap =>
    if (⌊ph + r⌋).toNat ≤ cap then
      let rest := phaseResampler (ph + r - ((⌊ph + r⌋).toNat : ℚ)) r fs (cap - (⌊ph + r⌋).toNat)
      (rest.1, rest.2.1 + 1, List.replicate (⌊ph + r⌋).toNat f ++ rest.2.2)
    else (ph, 0, [])

/-! ## Engine -/

/-- The playback mode the module selects; it never selects another one. -/
inductive PlaybackMode where
  | PLAYBACK_MODE_GRANULAR
deriving DecidableEq, Repr

/-- The operations of `clouds::GranularProcessor` that `Clouds::step` calls, over an
engine state `ε`.  The engine is an external collaborator. -/
structure GranularProcessor (ε : Type) where
  set_num_channels : Nat → ε → ε
  set_low_fidelity : Bool → ε → ε
  set_playback_mode : PlaybackMode → ε → ε
  Prepare : ε → ε
  Process : ε → Parameters → List ShortFrame → Nat → ε × List ShortFrame

/-- An engine that returns its input block; used to evaluate `step` on concrete inputs. -/
def echoProcessor : GranularProcessor Nat where
  set_num_channels := fun _ e => e
  set_low_fidelity := fun _ e => e
  set_playback_mode := fun _ e => e
  Prepare := fun e => e
  Process := fun e _ input _ => (e + 1, input)

/-! ## Module state and host interface -/

/-- What one call of `Clouds::step` reads from the host: the knob values
(`params[...]`), the values on the input ports (`getf(inputs[...])`) and the
host sample rate (`gRack->sampleRate`). -/
structure Host where
  POSITION_PARAM : ℚ
  SIZE_PARAM : ℚ
  PITCH_PARAM : ℚ
  IN_GAIN_PARAM : ℚ
  DENSITY_PARAM : ℚ
  TEXTURE_PARAM : ℚ
  BLEND_PARAM : ℚ
  FREEZE_INPUT : ℚ
  TRIG_INPUT : ℚ
  POSITION_INPUT : ℚ
  SIZE_INPUT : ℚ
  PITCH_INPUT : ℚ
  BLEND_INPUT : ℚ
  IN_L_INPUT : ℚ
  IN_R_INPUT : ℚ
  DENSITY_INPUT : ℚ
  TEXTURE_INPUT : ℚ
  sampleRate : ℚ

/-- The state of `struct Clouds`, with the values last written to its two output ports. -/
structure Clouds (σ ε : Type) where
  inputSrc : SampleRateConverter σ
  outputSrc : SampleRateConverter σ
  inputBuffer : DoubleRingBuffer
  outputBuffer : DoubleRingBuffer
  processor : ε
  triggered : Bool
  OUT_L_OUTPUT : ℚ
  OUT_R_OUTPUT : ℚ
deriving DecidableEq, Repr

/-- One call of `processor->Process(input, output, 32)` as the engine sees it. -/
structure ProcessCall where
  parameters : Parameters
  input : List ShortFrame
  size : Nat
deriving DecidableEq, Repr

/-- What one call of `Clouds::step` did towards its collaborators: the engine
calls it made and the frames it popped from the output ring buffer. -/
structure StepLog where
  calls : List ProcessCall
  shifted : List Frame
deriving DecidableEq, Repr

/-- A freshly constructed module: empty buffers, `triggered = false`. -/
def Clouds.init {σ ε : Type} (inputSrc outputSrc : SampleRateConverter σ) (processor : ε) :
    Clouds σ ε :=
  { inputSrc := inputSrc, outputSrc := outputSrc,
    inputBuffer := DoubleRingBuffer.new, outputBuffer := DoubleRingBuffer.new,
    processor := processor, triggered := false, OUT_L_OUTPUT := 0, OUT_R_OUTPUT := 0 }

/-! ## `Clouds::step` -/

/-- Modelled from the spec: `clampf(x, min, max)` of the host's utility header. -/
def clampf (x lo hi : ℚ) : ℚ :=
  if x < lo then lo else if hi < x then hi else x

/-- Rounding of a rational to the nearest integer, a tie going to the even one:
the rounding mode of the conversion of a `double` to a `float`. -/
def roundHalfEven (t : ℚ) : Int :=
  if t - ⌊t⌋ < 1 / 2 then ⌊t⌋
  else if 1 / 2 < t - ⌊t⌋ then ⌊t⌋ + 1
  else if ⌊t⌋ % 2 = 0 then ⌊t⌋ else ⌊t⌋ + 1

/-- The position of the leading binary digit of `n ≥ 1` (`fuel ≥ n` suffices):
the `e` with `2^e ≤ n < 2^(e+1)`. -/
def bitLength : Nat → Nat → Nat
  | 0, _ => 0
  | fuel + 1, n => if n < 2 then 0 else bitLength fuel (n / 2) + 1

/-- The binary exponent of a non-zero value: the `e` with `2^e ≤ |v| < 2^(e+1)`. -/
def binaryExponent (v : ℚ) : Int :=
  if (2 : ℚ) ^ ((bitLength v.num.natAbs v.num.natAbs : Int) - (bitLength v.den v.den : Int)) ≤ |v|
  then (bitLength v.num.natAbs v.num.natAbs : Int) - (bitLength v.den v.den : Int)
  else (bitLength v.num.natAbs v.num.natAbs : Int) - (bitLength v.den v.den : Int) - 1

/-- The spacing of 32-bit floats around `v`: 24 significant binary digits, and
`2^-149` in the subnormal range. -/
def ulp (v : ℚ) : ℚ := 2 ^ max (binaryExponent v - 23) (-149)

/-- The implicit conversion of the `double` product `sample * 32767.0` to the
`float` parameter of `clampf`: the nearest 32-bit float, ties to even.  A value
beyond the float range becomes infinite in C and is clamped to the same bound
as the finite value this gives, so the range is left unbounded here. -/
def toFloat (v : ℚ) : ℚ :=
  if v = 0 then 0 else (roundHalfEven (v / ulp v) : ℚ) * ulp v

/-- The implicit conversion of a `float` to the `short` field of a `ShortFrame`:
the fractional part is discarded. -/
def toShort (x : ℚ) : Int := Int.tdiv x.num (x.den : Int)

/-- Lines 103-104: `clampf(sample * 32767.0, -32768, 32767)` stored into a `short`.
The product is formed in `double`, where it is exact for a `float` sample, and
is narrowed to `float` when it is passed to `clampf`. -/
def quantizeSample (x : ℚ) : Int := toShort (clampf (toFloat (x * 32767)) (-32768) 32767)

/-- Lines 103-104 for both channels of one frame. -/
def quantize (f : Frame) : ShortFrame := ⟨quantizeSample f.samples0, quantizeSample f.samples1⟩

/-- Lines 136-137: an engine output frame back to floating samples. -/
def dequantize (o : ShortFrame) : Frame := ⟨(o.l : ℚ) / 32768, (o.r : ℚ) / 32768⟩

/-- Lines 77-82, "Get input". -/
def getInput {σ ε : Type} (h : Host) (m : Clouds σ ε) : Except BridgeError (Clouds σ ε) :=
  if !m.inputBuffer.full then
    match m.inputBuffer.push
        ⟨h.IN_L_INPUT * h.IN_GAIN_PARAM / 5, h.IN_R_INPUT * h.IN_GAIN_PARAM / 5⟩ with
    | .error e => .error e
    | .ok b => .ok { m with inputBuffer := b }
  else .ok m

/-- Lines 85-87, "Trigger". -/
def trigger {σ ε : Type} (h : Host) (m : Clouds σ ε) : Clouds σ ε :=
  if h.TRIG_INPUT ≥ 1 then { m with triggered := true } else m

/-- Lines 91-106, "Convert input buffer": the converter call of line 98 on the
whole input buffer with room for 32 frames. -/
def inputConversion {σ ε : Type} (K : Resampler σ) (h : Host) (m : Clouds σ ε) :
    SampleRateConverter σ × Nat × List Frame :=
  (m.inputSrc.setRatio (32000 / h.sampleRate)).process K
    m.inputBuffer.startData m.inputBuffer.size 32

/-- Lines 91-106, "Convert input buffer": the zero-initialised block
`input[32]` with its first `outLen` entries overwritten. -/
def convertInput {σ ε : Type} (K : Resampler σ) (h : Host) (m : Clouds σ ε) :
    Except BridgeError (Clouds σ ε × List ShortFrame) :=
  let res := inputConversion K h m
  let inputFrames := res.2.2
  let outLen := inputFrames.length
  if outLen ≤ 32 then
    match m.inputBuffer.startIncr res.2.1 with
    | .error e => .error e
    | .ok b =>
      .ok ({ m with inputSrc := res.1, inputBuffer := b },
        inputFrames.map quantize ++ List.replicate (32 - outLen) ⟨0, 0⟩)
  else .error .OutOfBounds

/-- Lines 115-127: the parameter block written before every engine call. -/
def parameters (h : Host) (triggered : Bool) : Parameters :=
  { trigger := triggered
    freeze := decide (h.FREEZE_INPUT ≥ 1)
    position := clampf (h.POSITION_PARAM + h.POSITION_INPUT / 5) 0 1
    size := clampf (h.SIZE_PARAM + h.SIZE_INPUT / 5) 0 1
    pitch := clampf ((h.PITCH_PARAM + h.PITCH_INPUT) * 12) (-48) 48
    density := clampf (h.DENSITY_PARAM + h.DENSITY_INPUT / 5) 0 1
    texture := clampf (h.TEXTURE_PARAM + h.TEXTURE_INPUT / 5) 0 1
    dry_wet := clampf (h.BLEND_PARAM + h.BLEND_INPUT / 5) 0 1
    stereo_spread := 0
    feedback := 0
    reverb := 0 }

/-- Lines 134-138: the 32 entries of `output[32]` as floating frames. -/
def outputFrames (output : List ShortFrame) : List Frame :=
  (List.range 32).map (fun i => dequantize (output.getD i ⟨0, 0⟩))

/-- Lines 140-143: the converter call of the output conversion, offering the 32
engine frames and the free capacity of the output ring buffer. -/
def outputConversion {σ ε : Type} (K : Resampler σ) (h : Host) (m : Clouds σ ε)
    (output : List ShortFrame) : SampleRateConverter σ × Nat × List Frame :=
  (m.outputSrc.setRatio (h.sampleRate / 32000)).process K
    (outputFrames output) 32 m.outputBuffer.capacity

/-- Lines 133-145, "Convert output buffer": the produced frames are committed
with `endIncr(outLen)`; the consumed count `inLen` is not read again. -/
def convertOutput {σ ε : Type} (K : Resampler σ) (h : Host) (m : Clouds σ ε)
    (output : List ShortFrame) : Except BridgeError (Clouds σ ε) :=
  let res := outputConversion K h m output
  match m.outputBuffer.endIncr res.2.2 res.2.2.length with
  | .error e => .error e
  | .ok b => .ok { m with outputSrc := res.1, outputBuffer := b }

/-- Lines 109-113: the engine set-up that precedes every block. -/
def setUp {ε : Type} (E : GranularProcessor ε) (e : ε) : ε :=
  E.Prepare (E.set_playback_mode .PLAYBACK_MODE_GRANULAR
    (E.set_low_fidelity false (E.set_num_channels 2 e)))

/-- Lines 90-148, "Render frames". -/
def render {σ ε : Type} (K : Resampler σ) (E : GranularProcessor ε) (h : Host)
    (m : Clouds σ ε) : Except BridgeError (Clouds σ ε × List ProcessCall) :=
  if m.outputBuffer.empty then
    match convertInput K h m with
    | .error e => .error e
    | .ok (m1, input) =>
      let p := parameters h m1.triggered
      let res := E.Process (setUp E m1.processor) p input 32
      match convertOutput K h { m1 with processor := res.1 } res.2 with
      | .error e => .error e
      | .ok m2 => .ok ({ m2 with triggered := false }, [⟨p, input, 32⟩])
  else .ok (m, [])

/-- Lines 151-155, "Set output". -/
def setOutput {σ ε : Type} (m : Clouds σ ε) : Except BridgeError (Clouds σ ε × List Frame) :=
  if !m.outputBuffer.empty then
    match m.outputBuffer.shift with
    | .error e => .error e
    | .ok (f, b) =>
      .ok ({ m with outputBuffer := b, OUT_L_OUTPUT := 5 * f.samples0,
                    OUT_R_OUTPUT := 5 * f.samples1 }, [f])
  else .ok (m, [])

/-- The function `Clouds::step` (lines 75-156). -/
def Clouds.step {σ ε : Type} (K : Resampler σ) (E : GranularProcessor ε) (h : Host)
    (m : Clouds σ ε) : Except BridgeError (Clouds σ ε × StepLog) :=
  match getInput h m with
  | .error e => .error e
  | .ok m1 =>
    match render K E h (trigger h m1) with
    | .error e => .error e
    | .ok (m2, calls) =>
      match setOutput m2 with
      | .error e => .error e
      | .ok (m3, shifted) => .ok (m3, ⟨calls, shifted⟩)

/-- A sequence of calls of `Clouds::step`, one per host tick, with the log of each. -/
def Clouds.run {σ ε : Type} (K : Resampler σ) (E : GranularProcessor ε) :
    Clouds σ ε → List Host → Except BridgeError (Clouds σ ε × List StepLog)
  | m, [] => .ok (m, [])
  | m, h :: hs =>
    match Clouds.step K E h m with
    | .error e => .error e
    | .ok (m1, log) =>
      match Clouds.run K E m1 hs with
      | .error e => .error e
      | .ok (m2, logs) => .ok (m2, log :: logs)

/-- A host tick with every knob, port and gate at `0` and the given sample rate. -/
def Host.quiet (sampleRate : ℚ) : Host :=
  { POSITION_PARAM := 0, SIZE_PARAM := 0, PITCH_PARAM := 0, IN_GAIN_PARAM := 0,
    DENSITY_PARAM := 0, TEXTURE_PARAM := 0, BLEND_PARAM := 0, FREEZE_INPUT := 0,
    TRIG_INPUT := 0, POSITION_INPUT := 0, SIZE_INPUT := 0, PITCH_INPUT := 0,
    BLEND_INPUT := 0, IN_L_INPUT := 0, IN_R_INPUT := 0, DENSITY_INPUT := 0,
    TEXTURE_INPUT := 0, sampleRate := sampleRate }

/-- The module right after construction, over the phase-accumulator converter
(ratio 1, phase 0) and the echo engine. -/
def Clouds.fresh : Clouds ℚ Nat := Clouds.init ⟨1, 0⟩ ⟨1, 0⟩ 0

/-! ## Auxiliary definitions used to state the theorems -/

/-- The block handed to the engine: the quantised converter output, padded with
the untouched zero entries of `input[32]`. -/
def engineInput {σ ε : Type} (K : Resampler σ) (h : Host) (m : Clouds σ ε) : List ShortFrame :=
  (inputConversion K h m).2.2.map quantize ++
    List.replicate (32 - (inputConversion K h m).2.2.length) ⟨0, 0⟩

/-- The host frame queued by "Get input". -/
def Host.frame (h : Host) : Frame :=
  ⟨h.IN_L_INPUT * h.IN_GAIN_PARAM / 5, h.IN_R_INPUT * h.IN_GAIN_PARAM / 5⟩

/-- Whether the trigger gate is high at this tick. -/
def Host.gate (h : Host) : Bool := decide (h.TRIG_INPUT ≥ 1)

/-- The engine output of a render step. -/
def engineOutput {σ ε : Type} (K : Resampler σ) (E : GranularProcessor ε) (h : Host)
    (m : Clouds σ ε) : ε × List ShortFrame :=
  E.Process (setUp E m.processor) (parameters h m.triggered) (engineInput K h m) 32

/-- The state in which "Render frames" finds the module: after "Get input" and "Trigger". -/
def atRenderCheck {σ ε : Type} (h : Host) (m : Clouds σ ε) : Clouds σ ε :=
  trigger h (if DoubleRingBuffer.S ≤ m.inputBuffer.size then m
    else { m with inputBuffer := ⟨m.inputBuffer.frames ++ [h.frame], m.inputBuffer.start⟩ })

/-- The engine call on an all-zero block with all knobs and ports at 0. -/
def silentCall (h : Host) (t : Bool) : ProcessCall :=
  ⟨parameters h t, List.replicate 32 ⟨0, 0⟩, 32⟩

/-- A module with empty buffers whose output ports still hold `1` and `-1`. -/
def heldModule : Clouds ℚ Nat := { Clouds.fresh with OUT_L_OUTPUT := 1, OUT_R_OUTPUT := -1 }

/-- The module `heldModule` after one step at a host rate of 500 Hz. -/
def heldModuleAfter : Clouds ℚ Nat :=
  { inputSrc := ⟨64, 0⟩, outputSrc := ⟨1 / 64, 1 / 2⟩,
    inputBuffer := ⟨[⟨0, 0⟩], 0⟩, outputBuffer := ⟨[], 0⟩,
    processor := 1, triggered := false, OUT_L_OUTPUT := 1, OUT_R_OUTPUT := -1 }

/-- A module whose input buffer is full and whose output buffer holds one frame. -/
def stalledModule : Clouds ℚ Nat :=
  { Clouds.fresh with
      inputBuffer := ⟨List.replicate 256 ⟨1 / 2, -1 / 2⟩, 0⟩,
      outputBuffer := ⟨[⟨0, 0⟩], 0⟩ }

/-- A tick that offers the host frame `(1, 1)`. -/
def loudTick : Host := { Host.quiet 48000 with IN_L_INPUT := 5, IN_R_INPUT := 5, IN_GAIN_PARAM := 1 }

/-- A tick at 2 kHz with the trigger gate high. -/
def gateTick : Host := { Host.quiet 2000 with TRIG_INPUT := 5 }

/-- The fresh module after one quiet tick at 2 kHz (a render step). -/
def latchDemo₁ : Clouds ℚ Nat :=
  { inputSrc := ⟨16, 0⟩, outputSrc := ⟨1 / 16, 0⟩,
    inputBuffer := ⟨[], 1⟩, outputBuffer := ⟨[⟨0, 0⟩], 1⟩,
    processor := 1, triggered := false, OUT_L_OUTPUT := 0, OUT_R_OUTPUT := 0 }

/-- Then after `gateTick` (no render). -/
def latchDemo₂ : Clouds ℚ Nat :=
  { inputSrc := ⟨16, 0⟩, outputSrc := ⟨1 / 16, 0⟩,
    inputBuffer := ⟨[⟨0, 0⟩], 1⟩, outputBuffer := ⟨[], 2⟩,
    processor := 1, triggered := true, OUT_L_OUTPUT := 0, OUT_R_OUTPUT := 0 }

/-- Then after another quiet tick (a render step). -/
def latchDemo₃ : Clouds ℚ Nat :=
  { inputSrc := ⟨16, 0⟩, outputSrc := ⟨1 / 16, 0⟩,
    inputBuffer := ⟨[], 3⟩, outputBuffer := ⟨[⟨0, 0⟩], 3⟩,
    processor := 2, triggered := false, OUT_L_OUTPUT := 0, OUT_R_OUTPUT := 0 }

/-- A module with two frames queued, the second beyond full scale on both channels. -/
def primedModule : Clouds ℚ Nat :=
  { Clouds.fresh with inputBuffer := ⟨[⟨1 / 2, -1 / 4⟩, ⟨3 / 2, -2⟩], 0⟩ }

/-- A tick at the engine rate (ratio 1) that offers the host frame `(1/8, -1/8)`. -/
def unityTick : Host :=
  { Host.quiet 32000 with IN_L_INPUT := 5 / 8, IN_R_INPUT := -5 / 8, IN_GAIN_PARAM := 1 }

/-- The block the engine receives when `primedModule` takes `unityTick`. -/
def primedBlock : List ShortFrame :=
  [⟨16383, -8191⟩, ⟨32767, -32768⟩, ⟨4095, -4095⟩] ++ List.replicate 29 ⟨0, 0⟩

/-- The module `primedModule` after `unityTick`. -/
def primedAfter : Clouds ℚ Nat :=
  { inputSrc := ⟨1, 0⟩, outputSrc := ⟨1, 0⟩,
    inputBuffer := ⟨[], 3⟩,
    outputBuffer := ⟨[⟨32767 / 32768, -1⟩, ⟨4095 / 32768, -4095 / 32768⟩]
      ++ List.replicate 29 ⟨0, 0⟩, 1⟩,
    processor := 1, triggered := false,
    OUT_L_OUTPUT := 81915 / 32768, OUT_R_OUTPUT := -40955 / 32768 }

/-- A tick at the engine rate that offers the host frame `(32769/65536, 0)`. -/
def roundingTick : Host :=
  { Host.quiet 32000 with IN_L_INPUT := 163845 / 65536, IN_GAIN_PARAM := 1 }

/-- The fresh module after `roundingTick`. -/
def roundingAfter : Clouds ℚ Nat :=
  { inputSrc := ⟨1, 0⟩, outputSrc := ⟨1, 0⟩,
    inputBuffer := ⟨[], 1⟩, outputBuffer := ⟨List.replicate 31 ⟨0, 0⟩, 1⟩,
    processor := 1, triggered := false, OUT_L_OUTPUT := 5 / 2, OUT_R_OUTPUT := 0 }

/-- A module with one frame queued that is beyond full scale on both channels. -/
def saturatedModule : Clouds ℚ Nat :=
  { Clouds.fresh with inputBuffer := ⟨[⟨3 / 2, -2⟩], 0⟩ }

/-- The module `saturatedModule` after a quiet tick at the engine rate. -/
def saturatedAfter : Clouds ℚ Nat :=
  { inputSrc := ⟨1, 0⟩, outputSrc := ⟨1, 0⟩,
    inputBuffer := ⟨[], 2⟩, outputBuffer := ⟨List.replicate 31 ⟨0, 0⟩, 1⟩,
    processor := 1, triggered := false,
    OUT_L_OUTPUT := 163835 / 32768, OUT_R_OUTPUT := -5 }

/-! ## The narrowing to `float` -/

theorem bitLength_spec : ∀ (fuel n : Nat), n ≤ fuel → 1 ≤ n →
    2 ^ bitLength fuel n ≤ n ∧ n < 2 ^ (bitLength fuel n + 1) := by
  intro fuel
  induction fuel with
  | zero => intro n h0 h1; omega
  | succ fuel ih =>
    intro n hf h1
    unfold bitLength
    split_ifs with h2
    · simp; omega
    · obtain ⟨i1, i2⟩ := ih (n / 2) (by omega) (by omega)
      rw [pow_succ, pow_succ]
      rw [pow_succ] at i2
      omega

theorem abs_eq_natAbs_div (v : ℚ) : |v| = (v.num.natAbs : ℚ) / (v.den : ℚ) := by
  have h1 : (v.num.natAbs : ℚ) = |(v.num : ℚ)| := by
    rw [Nat.cast_natAbs, Int.cast_abs]
  have hd : (0 : ℚ) < v.den := by exact_mod_cast v.den_pos
  rw [h1]
  conv_lhs => rw [← Rat.num_div_den v]
  rw [abs_div, abs_of_pos hd]

/-- The binary exponent brackets the magnitude: `2^e ≤ |v| < 2^(e+1)`. -/
theorem binaryExponent_spec {v : ℚ} (hv : v ≠ 0) :
    (2 : ℚ) ^ binaryExponent v ≤ |v| ∧ |v| < (2 : ℚ) ^ (binaryExponent v + 1) := by
  have hn : 1 ≤ v.num.natAbs := Nat.one_le_iff_ne_zero.mpr
    (Int.natAbs_ne_zero.mpr (Rat.num_ne_zero.mpr hv))
  have hd : 1 ≤ v.den := v.den_pos
  obtain ⟨a1, a2⟩ := bitLength_spec v.num.natAbs v.num.natAbs le_rfl hn
  obtain ⟨b1, b2⟩ := bitLength_spec v.den v.den le_rfl hd
  have a1' : (2 : ℚ) ^ bitLength v.num.natAbs v.num.natAbs ≤ (v.num.natAbs : ℚ) := by
    exact_mod_cast a1
  have a2' : (v.num.natAbs : ℚ) < (2 : ℚ) ^ (bitLength v.num.natAbs v.num.natAbs + 1) := by
    exact_mod_cast a2
  have b1' : (2 : ℚ) ^ bitLength v.den v.den ≤ (v.den : ℚ) := by exact_mod_cast b1
  have b2' : (v.den : ℚ) < (2 : ℚ) ^ (bitLength v.den v.den + 1) := by exact_mod_cast b2
  have hdq : (0 : ℚ) < v.den := by exact_mod_cast v.den_pos
  have h2 : (2 : ℚ) ≠ 0 := two_ne_zero
  have hpa : (0 : ℚ) < 2 ^ bitLength v.num.natAbs v.num.natAbs := by positivity
  have hpb : (0 : ℚ) < 2 ^ bitLength v.den v.den := by positivity
  have habs := abs_eq_natAbs_div v
  unfold binaryExponent
  split_ifs with hc
  · refine ⟨hc, ?_⟩
    rw [habs, div_lt_iff₀ hdq]
    have e1 : (2 : ℚ) ^ ((bitLength v.num.natAbs v.num.natAbs : Int)
        - (bitLength v.den v.den : Int) + 1)
        = 2 ^ (bitLength v.num.natAbs v.num.natAbs + 1) / 2 ^ bitLength v.den v.den := by
      rw [show ((bitLength v.num.natAbs v.num.natAbs : Int) - (bitLength v.den v.den : Int) + 1)
        = ((bitLength v.num.natAbs v.num.natAbs + 1 : ℕ) : Int) - (bitLength v.den v.den : Int)
        by push_cast; ring]
      rw [zpow_sub₀ h2, zpow_natCast, zpow_natCast]
    rw [e1, div_mul_eq_mul_div, lt_div_iff₀ hpb]
    calc (v.num.natAbs : ℚ) * 2 ^ bitLength v.den v.den
        < 2 ^ (bitLength v.num.natAbs v.num.natAbs + 1) * 2 ^ bitLength v.den v.den :=
          mul_lt_mul_of_pos_right a2' hpb
      _ ≤ 2 ^ (bitLength v.num.natAbs v.num.natAbs + 1) * (v.den : ℚ) :=
          mul_le_mul_of_nonneg_left b1' (by positivity)
  · refine ⟨?_, ?_⟩
    · rw [habs, le_div_iff₀ hdq]
      have e1 : (2 : ℚ) ^ ((bitLength v.num.natAbs v.num.natAbs : Int)
          - (bitLength v.den v.den : Int) - 1)
          = 2 ^ bitLength v.num.natAbs v.num.natAbs / 2 ^ (bitLength v.den v.den + 1) := by
        rw [show ((bitLength v.num.natAbs v.num.natAbs : Int) - (bitLength v.den v.den : Int) - 1)
          = ((bitLength v.num.natAbs v.num.natAbs : ℕ) : Int)
            - ((bitLength v.den v.den + 1 : ℕ) : Int) by push_cast; ring]
        rw [zpow_sub₀ h2, zpow_natCast, zpow_natCast]
      have hpb1 : (0 : ℚ) < 2 ^ (bitLength v.den v.den + 1) := by positivity
      rw [e1, div_mul_eq_mul_div, div_le_iff₀ hpb1]
      calc (2 : ℚ) ^ bitLength v.num.natAbs v.num.natAbs * (v.den : ℚ)
          ≤ 2 ^ bitLength v.num.natAbs v.num.natAbs * 2 ^ (bitLength v.den v.den + 1) :=
            mul_le_mul_of_nonneg_left b2'.le hpa.le
        _ ≤ (v.num.natAbs : ℚ) * 2 ^ (bitLength v.den v.den + 1) :=
            mul_le_mul_of_nonneg_right a1' hpb1.le
    · rw [sub_add_cancel]
      exact not_le.mp hc

theorem ulp_pos (v : ℚ) : 0 < ulp v := by
  unfold ulp
  positivity

theorem le_roundHalfEven {t : ℚ} {N : Int} (h : (N : ℚ) ≤ t) : N ≤ roundHalfEven t := by
  have hf : N ≤ ⌊t⌋ := Int.le_floor.mpr h
  unfold roundHalfEven
  split_ifs <;> omega

theorem roundHalfEven_le {t : ℚ} {N : Int} (h : t ≤ (N : ℚ)) : roundHalfEven t ≤ N := by
  have hfl : ((⌊t⌋ : Int) : ℚ) ≤ t := Int.floor_le t
  have hf : ⌊t⌋ ≤ N := by
    have : ((⌊t⌋ : Int) : ℚ) ≤ (N : ℚ) := le_trans hfl h
    exact_mod_cast this
  unfold roundHalfEven
  split_ifs with h1 h2 h3
  · exact hf
  · have hlt : ((⌊t⌋ : Int) : ℚ) < (N : ℚ) := by linarith
    have : ⌊t⌋ < N := by exact_mod_cast hlt
    omega
  · exact hf
  · have hlt : ((⌊t⌋ : Int) : ℚ) < (N : ℚ) := by
      have : (1 : ℚ) / 2 ≤ t - ⌊t⌋ := not_lt.mp h1
      linarith
    have : ⌊t⌋ < N := by exact_mod_cast hlt
    omega

/-- The rounded value is within half a unit in the last place of the exact one. -/
theorem toFloat_near (v : ℚ) : |toFloat v - v| ≤ ulp v / 2 := by
  have hu := ulp_pos v
  unfold toFloat
  split_ifs with h0
  · rw [h0]; simp; exact div_nonneg (ulp_pos 0).le (by norm_num)
  · have hfl := Int.floor_le (v / ulp v)
    have hlt := Int.lt_floor_add_one (v / ulp v)
    have hv : v = v / ulp v * ulp v := by field_simp
    have key : |(roundHalfEven (v / ulp v) : ℚ) - v / ulp v| ≤ 1 / 2 := by
      unfold roundHalfEven
      split_ifs with h1 h2 h3
      · rw [abs_le]; constructor <;> linarith
      · rw [abs_le]; push_cast; constructor <;> linarith
      · rw [abs_le]; constructor <;> linarith [not_lt.mp h1]
      · rw [abs_le]; push_cast; constructor <;> linarith [not_lt.mp h2]
    calc |(roundHalfEven (v / ulp v) : ℚ) * ulp v - v|
        = |(roundHalfEven (v / ulp v) : ℚ) - v / ulp v| * ulp v := by
          rw [← abs_of_pos hu, ← abs_mul, abs_of_pos hu]
          congr 1
          field_simp
      _ ≤ 1 / 2 * ulp v := mul_le_mul_of_nonneg_right key hu.le
      _ = ulp v / 2 := by ring

theorem grid_le_toFloat {v : ℚ} {N : Int} (hv : v ≠ 0) (h : (N : ℚ) * ulp v ≤ v) :
    (N : ℚ) * ulp v ≤ toFloat v := by
  have hu := ulp_pos v
  unfold toFloat
  rw [if_neg hv]
  have : N ≤ roundHalfEven (v / ulp v) := le_roundHalfEven ((le_div_iff₀ hu).mpr h)
  exact mul_le_mul_of_nonneg_right (by exact_mod_cast this) hu.le

theorem toFloat_le_grid {v : ℚ} {N : Int} (hv : v ≠ 0) (h : v ≤ (N : ℚ) * ulp v) :
    toFloat v ≤ (N : ℚ) * ulp v := by
  have hu := ulp_pos v
  unfold toFloat
  rw [if_neg hv]
  have : roundHalfEven (v / ulp v) ≤ N := roundHalfEven_le ((div_le_iff₀ hu).mpr h)
  exact mul_le_mul_of_nonneg_right (by exact_mod_cast this) hu.le

/-- Either the unit in the last place divides 1 (so every integer is on the
grid), or it is at least 2 and `2^23` units do not exceed the magnitude. -/
theorem ulp_cases {v : ℚ} (hv : v ≠ 0) :
    (∃ n : Nat, ulp v * 2 ^ n = 1) ∨ (2 ≤ ulp v ∧ (2 : ℚ) ^ 23 * ulp v ≤ |v|) := by
  have h2 : (2 : ℚ) ≠ 0 := two_ne_zero
  rcases le_or_lt (max (binaryExponent v - 23) (-149)) 0 with hk | hk
  · left
    refine ⟨(-(max (binaryExponent v - 23) (-149))).toNat, ?_⟩
    unfold ulp
    rw [← zpow_natCast, Int.toNat_of_nonneg (by omega), ← zpow_add₀ h2, add_neg_cancel, zpow_zero]
  · right
    have hk' : max (binaryExponent v - 23) (-149) = binaryExponent v - 23 := by
      rcases max_cases (binaryExponent v - 23) (-149) with ⟨h, -⟩ | ⟨h, -⟩
      · exact h
      · omega
    unfold ulp
    rw [hk'] at hk ⊢
    constructor
    · calc (2 : ℚ) = 2 ^ (1 : Int) := by norm_num
        _ ≤ 2 ^ (binaryExponent v - 23) := zpow_le_zpow_right₀ (by norm_num) (by omega)
    · have := (binaryExponent_spec hv).1
      calc (2 : ℚ) ^ 23 * 2 ^ (binaryExponent v - 23)
          = 2 ^ ((23 : Int) + (binaryExponent v - 23)) := by
            rw [zpow_add₀ h2]; norm_num
        _ = 2 ^ binaryExponent v := by rw [add_sub_cancel]
        _ ≤ |v| := this

theorem le_toFloat_of_le {M : Int} (hM : 0 < M) (hM2 : M ≤ 2 ^ 24) {v : ℚ} (h : (M : ℚ) ≤ v) :
    (M : ℚ) ≤ toFloat v := by
  have hMq : (0 : ℚ) < M := by exact_mod_cast hM
  have hv0 : 0 < v := lt_of_lt_of_le hMq h
  have hv : v ≠ 0 := hv0.ne'
  rcases ulp_cases hv with ⟨n, hn⟩ | ⟨hu2, hgrid⟩
  · have e : ((M * 2 ^ n : Int) : ℚ) * ulp v = M := by
      push_cast
      rw [mul_assoc, mul_comm ((2 : ℚ) ^ n), hn, mul_one]
    have := grid_le_toFloat (N := M * 2 ^ n) hv (by rw [e]; exact h)
    rwa [e] at this
  · rw [abs_of_pos hv0] at hgrid
    have := grid_le_toFloat (N := 2 ^ 23) hv (by push_cast; exact hgrid)
    push_cast at this
    have hM2q : (M : ℚ) ≤ 2 ^ 24 := by exact_mod_cast hM2
    calc (M : ℚ) ≤ 2 ^ 24 := hM2q
      _ = 2 ^ 23 * 2 := by norm_num
      _ ≤ 2 ^ 23 * ulp v := mul_le_mul_of_nonneg_left hu2 (by positivity)
      _ ≤ toFloat v := this

theorem toFloat_le_of_le {M : Int} (hM : 0 < M) (hM2 : M ≤ 2 ^ 24) {v : ℚ} (h : v ≤ -(M : ℚ)) :
    toFloat v ≤ -(M : ℚ) := by
  have hMq : (0 : ℚ) < M := by exact_mod_cast hM
  have hv0 : v < 0 := by linarith
  have hv : v ≠ 0 := hv0.ne
  rcases ulp_cases hv with ⟨n, hn⟩ | ⟨hu2, hgrid⟩
  · have e : ((-(M * 2 ^ n) : Int) : ℚ) * ulp v = -(M : ℚ) := by
      push_cast
      rw [neg_mul, mul_assoc, mul_comm ((2 : ℚ) ^ n), hn, mul_one]
    have := toFloat_le_grid (N := -(M * 2 ^ n)) hv (by rw [e]; exact h)
    rwa [e] at this
  · rw [abs_of_neg hv0] at hgrid
    have := toFloat_le_grid (N := -(2 ^ 23)) hv (by push_cast; linarith)
    push_cast at this
    have hM2q : (M : ℚ) ≤ 2 ^ 24 := by exact_mod_cast hM2
    have h3 : (2 : ℚ) ^ 23 * 2 ≤ 2 ^ 23 * ulp v := mul_le_mul_of_nonneg_left hu2 (by positivity)
    have h4 : (2 : ℚ) ^ 24 = 2 ^ 23 * 2 := by norm_num
    linarith

/-! ## Clamping and quantisation -/

theorem clampf_le {x lo hi : ℚ} (h : lo ≤ hi) : clampf x lo hi ≤ hi := by
  unfold clampf
  split_ifs with h1 h2
  · exact h
  · exact le_rfl
  · exact not_lt.mp h2

theorem le_clampf {x lo hi : ℚ} (h : lo ≤ hi) : lo ≤ clampf x lo hi := by
  unfold clampf
  split_ifs with h1 h2
  · exact le_rfl
  · exact h
  · exact not_lt.mp h1

theorem toShort_of_nonneg {x : ℚ} (h : 0 ≤ x) : toShort x = ⌊x⌋ := by
  unfold toShort
  rw [Rat.floor_def, Int.tdiv_eq_ediv (Rat.num_nonneg.mpr h) (Int.ofNat_nonneg _)]

theorem toShort_of_neg {x : ℚ} (h : x < 0) : toShort x = ⌈x⌉ := by
  unfold toShort
  have hn : 0 ≤ (-x).num := Rat.num_nonneg.mpr (by linarith)
  have h1 : Int.tdiv x.num (x.den : Int) = -Int.tdiv (-x).num ((-x).den : Int) := by
    rw [Rat.num_neg_eq_neg_num, Rat.den_neg_eq_den, Int.neg_tdiv, neg_neg]
  rw [h1, Int.tdiv_eq_ediv hn (Int.ofNat_nonneg _), ← Rat.floor_def, Int.floor_neg, neg_neg]

theorem toShort_intCast (z : Int) : toShort (z : ℚ) = z := by
  unfold toShort
  simp

theorem toShort_bounds {c : ℚ} {lo hi : Int} (hlo : lo ≤ 0) (hhi : 0 ≤ hi)
    (h1 : (lo : ℚ) ≤ c) (h2 : c ≤ (hi : ℚ)) : lo ≤ toShort c ∧ toShort c ≤ hi := by
  rcases le_or_lt 0 c with hc | hc
  · rw [toShort_of_nonneg hc]
    refine ⟨le_trans hlo (Int.floor_nonneg.mpr hc), ?_⟩
    have : ((⌊c⌋ : Int) : ℚ) ≤ (hi : ℚ) := le_trans (Int.floor_le c) h2
    exact_mod_cast this
  · rw [toShort_of_neg hc]
    refine ⟨?_, le_trans (Int.ceil_le.mpr (by simpa using hc.le)) hhi⟩
    have : (lo : ℚ) ≤ ((⌈c⌉ : Int) : ℚ) := le_trans h1 (Int.le_ceil c)
    exact_mod_cast this

/-- What lines 103-104 store for a sample `x`. -/
theorem quantizeSample_spec (x : ℚ) :
    quantizeSample x =
        (if 0 ≤ clampf (toFloat (x * 32767)) (-32768) 32767
         then ⌊clampf (toFloat (x * 32767)) (-32768) 32767⌋
         else ⌈clampf (toFloat (x * 32767)) (-32768) 32767⌉) ∧
      -32768 ≤ quantizeSample x ∧ quantizeSample x ≤ 32767 ∧
      (1 ≤ x → quantizeSample x = 32767) ∧
      (x ≤ -32768 / 32767 → quantizeSample x = -32768) := by
  refine ⟨?_, ?_, ?_, ?_, ?_⟩
  · unfold quantizeSample
    split_ifs with h
    · exact toShort_of_nonneg h
    · exact toShort_of_neg (not_le.mp h)
  · unfold quantizeSample
    have h1 := @le_clampf (toFloat (x * 32767)) (-32768) 32767 (by norm_num)
    exact (@toShort_bounds _ (-32768) 32767 (by norm_num) (by norm_num)
      (by push_cast; exact h1)
      (by push_cast; exact @clampf_le (toFloat (x * 32767)) (-32768) 32767 (by norm_num))).1
  · unfold quantizeSample
    have h1 := @le_clampf (toFloat (x * 32767)) (-32768) 32767 (by norm_num)
    exact (@toShort_bounds _ (-32768) 32767 (by norm_num) (by norm_num)
      (by push_cast; exact h1)
      (by push_cast; exact @clampf_le (toFloat (x * 32767)) (-32768) 32767 (by norm_num))).2
  · intro hx
    have h32 : ((32767 : Int) : ℚ) ≤ x * 32767 := by push_cast; linarith
    have hfl := @le_toFloat_of_le 32767 (by norm_num) (by norm_num) _ h32
    push_cast at hfl
    have hc : clampf (toFloat (x * 32767)) (-32768) 32767 = ((32767 : Int) : ℚ) := by
      unfold clampf
      rw [if_neg (by linarith)]
      split_ifs with h2
      · norm_num
      · push_cast; linarith
    unfold quantizeSample
    rw [hc, toShort_intCast]
  · intro hx
    have hm : x * 32767 ≤ -((32768 : Int) : ℚ) := by
      have := mul_le_mul_of_nonneg_right hx (by norm_num : (0 : ℚ) ≤ 32767)
      push_cast
      linarith [this]
    have hfl := @toFloat_le_of_le 32768 (by norm_num) (by norm_num) _ hm
    push_cast at hfl
    have hc : clampf (toFloat (x * 32767)) (-32768) 32767 = ((-32768 : Int) : ℚ) := by
      unfold clampf
      split_ifs with h1 h2
      · norm_num
      · linarith
      · push_cast; linarith
    unfold quantizeSample
    rw [hc, toShort_intCast]

/-! ## The phases of one step -/

theorem getInput_eq {σ ε : Type} (h : Host) (m : Clouds σ ε) :
    getInput h m = .ok (if DoubleRingBuffer.S ≤ m.inputBuffer.size then m
      else { m with inputBuffer := ⟨m.inputBuffer.frames ++ [h.frame], m.inputBuffer.start⟩ }) := by
  unfold getInput DoubleRingBuffer.full DoubleRingBuffer.push Host.frame
  by_cases hf : DoubleRingBuffer.S ≤ m.inputBuffer.size <;> simp [hf]

theorem trigger_eq {σ ε : Type} (h : Host) (m : Clouds σ ε) :
    trigger h m = { m with triggered := m.triggered || h.gate } := by
  unfold trigger Host.gate
  by_cases hg : h.TRIG_INPUT ≥ 1 <;> simp [hg]

theorem inputConversion_bounds {σ ε : Type} {K : Resampler σ} (hK : K.Contract) (h : Host)
    (m : Clouds σ ε) :
    (inputConversion K h m).2.1 ≤ m.inputBuffer.size ∧ (inputConversion K h m).2.2.length ≤ 32 := by
  unfold inputConversion SampleRateConverter.process DoubleRingBuffer.startData
    DoubleRingBuffer.size
  have := hK (m.inputSrc.setRatio (32000 / h.sampleRate)).state
    (m.inputSrc.setRatio (32000 / h.sampleRate)).ratio
    (m.inputBuffer.frames.take m.inputBuffer.frames.length) 32
  simpa using this

theorem outputConversion_bounds {σ ε : Type} {K : Resampler σ} (hK : K.Contract) (h : Host)
    (m : Clouds σ ε) (output : List ShortFrame) :
    (outputConversion K h m output).2.1 ≤ 32 ∧
      (outputConversion K h m output).2.2.length ≤ m.outputBuffer.capacity := by
  unfold outputConversion SampleRateConverter.process
  have := hK (m.outputSrc.setRatio (h.sampleRate / 32000)).state
    (m.outputSrc.setRatio (h.sampleRate / 32000)).ratio
    ((outputFrames output).take 32) m.outputBuffer.capacity
  refine ⟨le_trans this.1 ?_, this.2⟩
  simp [outputFrames]

theorem convertInput_eq {σ ε : Type} {K : Resampler σ} (hK : K.Contract) (h : Host)
    (m : Clouds σ ε) :
    convertInput K h m = .ok
      ({ m with inputSrc := (inputConversion K h m).1,
                inputBuffer := ⟨m.inputBuffer.frames.drop (inputConversion K h m).2.1,
                  m.inputBuffer.start + (inputConversion K h m).2.1⟩ },
        engineInput K h m) := by
  have hb := inputConversion_bounds hK h m
  unfold convertInput DoubleRingBuffer.startIncr engineInput
  simp only [hb.1, hb.2, if_true]

theorem convertOutput_eq {σ ε : Type} {K : Resampler σ} (hK : K.Contract) (h : Host)
    (m : Clouds σ ε) (output : List ShortFrame) :
    convertOutput K h m output = .ok
      { m with outputSrc := (outputConversion K h m output).1,
               outputBuffer := ⟨m.outputBuffer.frames ++ (outputConversion K h m output).2.2,
                 m.outputBuffer.start⟩ } := by
  have hb := outputConversion_bounds hK h m output
  unfold convertOutput DoubleRingBuffer.endIncr
  simp only [hb.2, if_true, List.take_length]

theorem setOutput_eq {σ ε : Type} (m : Clouds σ ε) :
    setOutput m = .ok
      (match m.outputBuffer.frames with
       | [] => (m, [])
       | f :: fs =>
         ({ m with outputBuffer := ⟨fs, m.outputBuffer.start + 1⟩,
                   OUT_L_OUTPUT := 5 * f.samples0, OUT_R_OUTPUT := 5 * f.samples1 }, [f])) := by
  unfold setOutput DoubleRingBuffer.empty DoubleRingBuffer.size DoubleRingBuffer.shift
  cases hf : m.outputBuffer.frames <;> simp

theorem render_of_nonempty {σ ε : Type} (K : Resampler σ) (E : GranularProcessor ε) (h : Host)
    (m : Clouds σ ε) (he : m.outputBuffer.empty = false) : render K E h m = .ok (m, []) := by
  unfold render
  simp [he]

theorem render_of_empty {σ ε : Type} {K : Resampler σ} (hK : K.Contract)
    (E : GranularProcessor ε) (h : Host) (m : Clouds σ ε) (he : m.outputBuffer.empty = true) :
    ∃ m', render K E h m = .ok (m', [⟨parameters h m.triggered, engineInput K h m, 32⟩]) ∧
      m'.triggered = false ∧
      m'.processor = (engineOutput K E h m).1 ∧
      m'.inputSrc = (inputConversion K h m).1 ∧
      m'.inputBuffer = ⟨m.inputBuffer.frames.drop (inputConversion K h m).2.1,
        m.inputBuffer.start + (inputConversion K h m).2.1⟩ ∧
      m'.outputSrc = (outputConversion K h m (engineOutput K E h m).2).1 ∧
      m'.outputBuffer = ⟨m.outputBuffer.frames ++
        (outputConversion K h m (engineOutput K E h m).2).2.2, m.outputBuffer.start⟩ ∧
      m'.OUT_L_OUTPUT = m.OUT_L_OUTPUT ∧ m'.OUT_R_OUTPUT = m.OUT_R_OUTPUT := by
  unfold render
  rw [if_pos he, convertInput_eq hK]
  simp only [convertOutput_eq hK]
  exact ⟨_, rfl, rfl, rfl, rfl, rfl, rfl, rfl, rfl, rfl⟩


theorem atRenderCheck_outputBuffer {σ ε : Type} (h : Host) (m : Clouds σ ε) :
    (atRenderCheck h m).outputBuffer = m.outputBuffer := by
  unfold atRenderCheck
  rw [trigger_eq]
  split_ifs <;> rfl

theorem atRenderCheck_triggered {σ ε : Type} (h : Host) (m : Clouds σ ε) :
    (atRenderCheck h m).triggered = (m.triggered || h.gate) := by
  unfold atRenderCheck
  rw [trigger_eq]
  split_ifs <;> rfl

theorem atRenderCheck_fields {σ ε : Type} (h : Host) (m : Clouds σ ε) :
    (atRenderCheck h m).processor = m.processor ∧
      (atRenderCheck h m).inputSrc = m.inputSrc ∧
      (atRenderCheck h m).outputSrc = m.outputSrc ∧
      (atRenderCheck h m).inputBuffer.start = m.inputBuffer.start ∧
      (atRenderCheck h m).OUT_L_OUTPUT = m.OUT_L_OUTPUT ∧
      (atRenderCheck h m).OUT_R_OUTPUT = m.OUT_R_OUTPUT := by
  unfold atRenderCheck
  rw [trigger_eq]
  split_ifs <;> exact ⟨rfl, rfl, rfl, rfl, rfl, rfl⟩

theorem atRenderCheck_inputBuffer {σ ε : Type} (h : Host) (m : Clouds σ ε) :
    (atRenderCheck h m).inputBuffer =
      if DoubleRingBuffer.S ≤ m.inputBuffer.size then m.inputBuffer
      else ⟨m.inputBuffer.frames ++ [h.frame], m.inputBuffer.start⟩ := by
  unfold atRenderCheck
  rw [trigger_eq]
  split_ifs <;> rfl

theorem step_eq {σ ε : Type} (K : Resampler σ) (E : GranularProcessor ε) (h : Host)
    (m : Clouds σ ε) :
    Clouds.step K E h m =
      match render K E h (atRenderCheck h m) with
      | .error e => .error e
      | .ok (m2, calls) =>
        .ok ((match m2.outputBuffer.frames with
              | [] => (m2, [])
              | f :: fs =>
                ({ m2 with outputBuffer := ⟨fs, m2.outputBuffer.start + 1⟩,
                           OUT_L_OUTPUT := 5 * f.samples0,
                           OUT_R_OUTPUT := 5 * f.samples1 }, [f])).1,
          ⟨calls, (match m2.outputBuffer.frames with
              | [] => (m2, [])
              | f :: fs =>
                ({ m2 with outputBuffer := ⟨fs, m2.outputBuffer.start + 1⟩,
                           OUT_L_OUTPUT := 5 * f.samples0,
                           OUT_R_OUTPUT := 5 * f.samples1 }, [f])).2⟩) := by
  unfold Clouds.step atRenderCheck
  rw [getInput_eq]
  simp only [setOutput_eq]

theorem empty_eq_false_iff (b : DoubleRingBuffer) :
    b.empty = false ↔ ∃ f fs, b.frames = f :: fs := by
  unfold DoubleRingBuffer.empty DoubleRingBuffer.size
  cases hb : b.frames <;> simp

theorem empty_eq_true_iff (b : DoubleRingBuffer) : b.empty = true ↔ b.frames = [] := by
  unfold DoubleRingBuffer.empty DoubleRingBuffer.size
  cases hb : b.frames <;> simp

/-- A step that finds the output buffer non-empty: no engine call, one frame popped. -/
theorem step_of_nonempty {σ ε : Type} (K : Resampler σ) (E : GranularProcessor ε) (h : Host)
    (m : Clouds σ ε) (f : Frame) (fs : List Frame) (hf : m.outputBuffer.frames = f :: fs) :
    Clouds.step K E h m = .ok
      ({ atRenderCheck h m with
          outputBuffer := ⟨fs, m.outputBuffer.start + 1⟩,
          OUT_L_OUTPUT := 5 * f.samples0, OUT_R_OUTPUT := 5 * f.samples1 }, ⟨[], [f]⟩) := by
  have he : (atRenderCheck h m).outputBuffer.empty = false := by
    rw [atRenderCheck_outputBuffer, empty_eq_false_iff]
    exact ⟨f, fs, hf⟩
  have hf2 : (atRenderCheck h m).outputBuffer.frames = f :: fs := by
    rw [atRenderCheck_outputBuffer, hf]
  have hs : (atRenderCheck h m).outputBuffer.start = m.outputBuffer.start := by
    rw [atRenderCheck_outputBuffer]
  rw [step_eq, render_of_nonempty K E h _ he]
  simp only [hf2, hs]

/-- A step that finds the output buffer empty: one engine call on the block
`engineInput`, then at most one frame popped. -/
theorem step_of_empty {σ ε : Type} {K : Resampler σ} (hK : K.Contract)
    (E : GranularProcessor ε) (h : Host) (m : Clouds σ ε) (he : m.outputBuffer.frames = []) :
    ∃ m' shifted, Clouds.step K E h m = .ok (m',
        ⟨[⟨parameters h (m.triggered || h.gate), engineInput K h (atRenderCheck h m), 32⟩],
          shifted⟩) ∧
      m'.triggered = false ∧
      m'.inputSrc = (inputConversion K h (atRenderCheck h m)).1 ∧
      m'.inputBuffer = ⟨(atRenderCheck h m).inputBuffer.frames.drop
          (inputConversion K h (atRenderCheck h m)).2.1,
        m.inputBuffer.start + (inputConversion K h (atRenderCheck h m)).2.1⟩ ∧
      m'.outputSrc = (outputConversion K h (atRenderCheck h m)
        (engineOutput K E h (atRenderCheck h m)).2).1 ∧
      m'.outputBuffer.frames = ((outputConversion K h (atRenderCheck h m)
        (engineOutput K E h (atRenderCheck h m)).2).2.2).tail ∧
      shifted = ((outputConversion K h (atRenderCheck h m)
        (engineOutput K E h (atRenderCheck h m)).2).2.2).take 1 ∧
      (shifted = [] → m'.OUT_L_OUTPUT = m.OUT_L_OUTPUT ∧ m'.OUT_R_OUTPUT = m.OUT_R_OUTPUT) := by
  have he' : (atRenderCheck h m).outputBuffer.empty = true := by
    rw [atRenderCheck_outputBuffer, empty_eq_true_iff]
    exact he
  obtain ⟨m2, hr, ht, -, hi, hib, ho, hob, hl, hr2⟩ := render_of_empty hK E h _ he'
  have hfr : (atRenderCheck h m).outputBuffer.frames = [] := by
    rw [atRenderCheck_outputBuffer]; exact he
  rw [hfr, List.nil_append] at hob
  rw [step_eq, hr, atRenderCheck_triggered]
  obtain ⟨_, _, _, hst, hL, hR⟩ := atRenderCheck_fields h m
  rw [hst] at hib
  simp only [hob]
  cases hw : (outputConversion K h (atRenderCheck h m)
      (engineOutput K E h (atRenderCheck h m)).2).2.2 with
  | nil =>
    refine ⟨_, _, rfl, ht, hi, hib, ho, ?_, rfl, fun _ => ⟨?_, ?_⟩⟩
    · simp only [hob, hw]; rfl
    · rw [hl, hL]
    · rw [hr2, hR]
  | cons f fs =>
    refine ⟨_, _, rfl, ht, hi, hib, ho, rfl, rfl, fun hc => ?_⟩
    simp at hc


/-! ## The phase-accumulator converter -/

theorem phaseResampler_contract : Resampler.Contract phaseResampler := by
  intro st r inp
  induction inp generalizing st with
  | nil => intro cap; simp [phaseResampler]
  | cons f fs ih =>
    intro cap
    unfold phaseResampler
    split_ifs with hk
    · have := ih (st + r - ((⌊st + r⌋).toNat : ℚ)) (cap - (⌊st + r⌋).toNat)
      simp only [List.length_cons, List.length_append, List.length_replicate]
      omega
    · simp

theorem natCast_toNat_floor {x : ℚ} (hx : 0 ≤ x) : (((⌊x⌋).toNat : ℕ) : ℚ) = ((⌊x⌋ : Int) : ℚ) := by
  have h0 : (0 : Int) ≤ ⌊x⌋ := Int.floor_nonneg.mpr hx
  have h1 : (((⌊x⌋).toNat : ℕ) : Int) = ⌊x⌋ := Int.toNat_of_nonneg h0
  calc (((⌊x⌋).toNat : ℕ) : ℚ) = ((((⌊x⌋).toNat : ℕ) : Int) : ℚ) := by push_cast; rfl
    _ = ((⌊x⌋ : Int) : ℚ) := by rw [h1]

/-- When the output of all frames offered fits the capacity, the phase
accumulator consumes them all, produces `⌊phase + n * ratio⌋` frames and
carries the fractional remainder. -/
theorem phaseResampler_fits (r : ℚ) (hr : 0 ≤ r) :
    ∀ (fs : List Frame) (ph : ℚ) (cap : Nat), 0 ≤ ph → ph < 1 →
      (⌊ph + (fs.length : ℚ) * r⌋).toNat ≤ cap →
      (phaseResampler ph r fs cap).1 = Int.fract (ph + (fs.length : ℚ) * r) ∧
        (phaseResampler ph r fs cap).2.1 = fs.length ∧
        (phaseResampler ph r fs cap).2.2.length = (⌊ph + (fs.length : ℚ) * r⌋).toNat := by
  intro fs
  induction fs with
  | nil =>
    intro ph cap h0 h1 _
    have hfl : ⌊ph⌋ = 0 := Int.floor_eq_zero_iff.mpr ⟨h0, h1⟩
    simp [phaseResampler, Int.fract, hfl]
  | cons f fs ih =>
    intro ph cap h0 h1 hfit
    have hlen : (((f :: fs).length : ℕ) : ℚ) = (fs.length : ℚ) + 1 := by
      simp only [List.length_cons]; push_cast; ring
    rw [hlen] at hfit ⊢
    have hnr : 0 ≤ (fs.length : ℚ) * r := mul_nonneg (Nat.cast_nonneg _) hr
    have hpr : 0 ≤ ph + r := add_nonneg h0 hr
    have hz0 : (0 : Int) ≤ ⌊ph + r⌋ := Int.floor_nonneg.mpr hpr
    have hcast := natCast_toNat_floor hpr
    have hsplit : ph + ((fs.length : ℚ) + 1) * r
        = (ph + r - ((⌊ph + r⌋ : Int) : ℚ)) + (fs.length : ℚ) * r + ((⌊ph + r⌋ : Int) : ℚ) := by
      ring
    have hfloor : ⌊ph + ((fs.length : ℚ) + 1) * r⌋
        = ⌊(ph + r - ((⌊ph + r⌋ : Int) : ℚ)) + (fs.length : ℚ) * r⌋ + ⌊ph + r⌋ := by
      rw [hsplit, Int.floor_add_int]
    have hph0 : 0 ≤ ph + r - ((⌊ph + r⌋ : Int) : ℚ) := by
      have := Int.floor_le (ph + r); linarith
    have hph1 : ph + r - ((⌊ph + r⌋ : Int) : ℚ) < 1 := by
      have := Int.lt_floor_add_one (ph + r); linarith
    have hrest0 : (0 : Int) ≤ ⌊(ph + r - ((⌊ph + r⌋ : Int) : ℚ)) + (fs.length : ℚ) * r⌋ :=
      Int.floor_nonneg.mpr (add_nonneg hph0 hnr)
    have htot : (⌊ph + ((fs.length : ℚ) + 1) * r⌋).toNat
        = (⌊(ph + r - ((⌊ph + r⌋ : Int) : ℚ)) + (fs.length : ℚ) * r⌋).toNat + (⌊ph + r⌋).toNat := by
      rw [hfloor, Int.toNat_add hrest0 hz0]
    have hk : (⌊ph + r⌋).toNat ≤ cap := by omega
    have hrestfit : (⌊(ph + r - ((⌊ph + r⌋ : Int) : ℚ)) + (fs.length : ℚ) * r⌋).toNat
        ≤ cap - (⌊ph + r⌋).toNat := by omega
    obtain ⟨i1, i2, i3⟩ := ih (ph + r - ((⌊ph + r⌋ : Int) : ℚ)) (cap - (⌊ph + r⌋).toNat)
      hph0 hph1 hrestfit
    unfold phaseResampler
    rw [if_pos hk, hcast]
    refine ⟨?_, ?_, ?_⟩
    · simp only [i1]
      rw [hsplit, Int.fract_add_int]
    · simp only [i2, List.length_cons]
    · simp only [List.length_append, List.length_replicate, i3, htot]
      omega

theorem length_outputFrames (output : List ShortFrame) : (outputFrames output).length = 32 := by
  simp [outputFrames]


/-! ## The engine block (C1), its parameters (C7) and the frame of a step (C9) -/

theorem engineInput_shape {σ ε : Type} {K : Resampler σ} (hK : K.Contract) (h : Host)
    (m : Clouds σ ε) :
    (engineInput K h m).length = 32 ∧
      (∀ (i : Nat) (f : Frame), (inputConversion K h m).2.2[i]? = some f →
        (engineInput K h m)[i]? = some (quantize f)) ∧
      ∀ i, (inputConversion K h m).2.2.length ≤ i → i < 32 →
        (engineInput K h m)[i]? = some ⟨0, 0⟩ := by
  have hb := (inputConversion_bounds hK h m).2
  unfold engineInput
  refine ⟨?_, ?_, ?_⟩
  · simp only [List.length_append, List.length_map, List.length_replicate]
    omega
  · intro i f hf
    have hi : i < (inputConversion K h m).2.2.length := by
      rcases Nat.lt_or_ge i (inputConversion K h m).2.2.length with hlt | hge
      · exact hlt
      · rw [List.getElem?_eq_none hge] at hf
        cases hf
    rw [List.getElem?_append_left (by simpa using hi), List.getElem?_map, hf]
    rfl
  · intro i h1 h2
    rw [List.getElem?_append_right (by simpa using h1)]
    rw [List.getElem?_replicate]
    simp only [List.length_map]
    rw [if_pos (by omega)]

/-- C1: whenever the output ring buffer is empty at the render check, the step
calls the engine on a block of exactly 32 frames, whatever the input ring buffer
holds: for each of the `outLen ≤ 32` frames the input converter produced, the
block holds at the same index its two samples as lines 103-104 quantise them
(`clampf(sample * 32767, -32768, 32767)` stored into a `short`), and every frame
from index `outLen` to 31 is the zero frame. -/
theorem engine_block_is_32_frames {σ ε : Type} {K : Resampler σ} (hK : K.Contract)
    (E : GranularProcessor ε) (h : Host) (m : Clouds σ ε)
    (he : (atRenderCheck h m).outputBuffer.empty = true) :
    ∃ m' shifted call, Clouds.step K E h m = .ok (m', ⟨[call], shifted⟩) ∧
      call.size = 32 ∧ call.input.length = 32 ∧
      (inputConversion K h (atRenderCheck h m)).2.2.length ≤ 32 ∧
      (∀ (i : Nat) (f : Frame), (inputConversion K h (atRenderCheck h m)).2.2[i]? = some f →
        call.input[i]? = some
          ⟨toShort (clampf (toFloat (f.samples0 * 32767)) (-32768) 32767),
           toShort (clampf (toFloat (f.samples1 * 32767)) (-32768) 32767)⟩) ∧
      ∀ i, (inputConversion K h (atRenderCheck h m)).2.2.length ≤ i → i < 32 →
        ∃ z, call.input[i]? = some z ∧ z.l = 0 ∧ z.r = 0 := by
  rw [atRenderCheck_outputBuffer, empty_eq_true_iff] at he
  obtain ⟨m', shifted, hs, -⟩ := step_of_empty hK E h m he
  obtain ⟨h1, h2, h3⟩ := engineInput_shape hK h (atRenderCheck h m)
  exact ⟨m', shifted, _, hs, rfl, h1, (inputConversion_bounds hK h _).2,
    fun i f hf => h2 i f hf, fun i hi hi' => ⟨⟨0, 0⟩, h3 i hi hi', rfl, rfl⟩⟩

/-- C1 on `primedModule` and `unityTick`: the converter yields the two queued
frames and the host frame, `outLen = 3`; the engine receives their three
quantised frames (the second saturated) followed by 29 zero frames. -/
theorem engine_block_is_32_frames_witness :
    Resampler.Contract phaseResampler ∧
    (atRenderCheck unityTick primedModule).outputBuffer.empty = true ∧
    (inputConversion phaseResampler unityTick (atRenderCheck unityTick primedModule)).2.2
      = [⟨1 / 2, -1 / 4⟩, ⟨3 / 2, -2⟩, ⟨1 / 8, -1 / 8⟩] ∧
    Clouds.step phaseResampler echoProcessor unityTick primedModule
      = .ok (primedAfter, ⟨[⟨parameters unityTick false, primedBlock, 32⟩],
          [⟨16383 / 32768, -8191 / 32768⟩]⟩) ∧
    ∃ m' shifted call,
      Clouds.step phaseResampler echoProcessor unityTick primedModule
        = .ok (m', ⟨[call], shifted⟩) ∧
      call.size = 32 ∧ call.input.length = 32 ∧
      (inputConversion phaseResampler unityTick
        (atRenderCheck unityTick primedModule)).2.2.length ≤ 32 ∧
      (∀ (i : Nat) (f : Frame), (inputConversion phaseResampler unityTick
          (atRenderCheck unityTick primedModule)).2.2[i]? = some f →
        call.input[i]? = some
          ⟨toShort (clampf (toFloat (f.samples0 * 32767)) (-32768) 32767),
           toShort (clampf (toFloat (f.samples1 * 32767)) (-32768) 32767)⟩) ∧
      ∀ i, (inputConversion phaseResampler unityTick
          (atRenderCheck unityTick primedModule)).2.2.length ≤ i → i < 32 →
        ∃ z, call.input[i]? = some z ∧ z.l = 0 ∧ z.r = 0 :=
  ⟨phaseResampler_contract, by decide!, by decide!, by decide!,
    engine_block_is_32_frames phaseResampler_contract echoProcessor unityTick primedModule
      (by decide!)⟩

/-- C8 (as the code has it): for every sample `x` the input converter produced
in a render step, the fixed-point sample `q` handed to the engine is
`clampf(fl(32767 * x), -32768, 32767)` rounded toward zero, where `fl` rounds the
product to the nearest 32-bit float as the `float` argument of `clampf` does;
`q` always lies in `[-32768, 32767]`, is `32767` for every `x ≥ 1` and `-32768`
for every `x ≤ -32768/32767`. -/
theorem engine_samples_saturate {σ ε : Type} {K : Resampler σ} (hK : K.Contract)
    (E : GranularProcessor ε) (h : Host) (m : Clouds σ ε)
    (he : (atRenderCheck h m).outputBuffer.empty = true) :
    ∃ m' shifted call, Clouds.step K E h m = .ok (m', ⟨[call], shifted⟩) ∧
      ∀ (i : Nat) (f : Frame), (inputConversion K h (atRenderCheck h m)).2.2[i]? = some f →
        ∃ z : ShortFrame, call.input[i]? = some z ∧
          ∀ (x : ℚ) (q : Int), (x = f.samples0 ∧ q = z.l) ∨ (x = f.samples1 ∧ q = z.r) →
            q = (if 0 ≤ clampf (toFloat (x * 32767)) (-32768) 32767
                 then ⌊clampf (toFloat (x * 32767)) (-32768) 32767⌋
                 else ⌈clampf (toFloat (x * 32767)) (-32768) 32767⌉) ∧
            -32768 ≤ q ∧ q ≤ 32767 ∧
            (1 ≤ x → q = 32767) ∧
            (x ≤ -32768 / 32767 → q = -32768) := by
  rw [atRenderCheck_outputBuffer, empty_eq_true_iff] at he
  obtain ⟨m', shifted, hs, -⟩ := step_of_empty hK E h m he
  obtain ⟨-, h2, -⟩ := engineInput_shape hK h (atRenderCheck h m)
  refine ⟨m', shifted, _, hs, fun i f hf => ⟨quantize f, h2 i f hf, ?_⟩⟩
  rintro x q (⟨rfl, rfl⟩ | ⟨rfl, rfl⟩)
  · exact quantizeSample_spec f.samples0
  · exact quantizeSample_spec f.samples1

/-- C9: a step calls the engine at most once, and does so exactly when the
output ring buffer is empty at the render check; a step that finds it non-empty
leaves the engine state, both converters (so both ratios) and the read cursor
of the input ring buffer as they were. -/
theorem engine_called_iff_output_empty {σ ε : Type} {K : Resampler σ} (hK : K.Contract)
    (E : GranularProcessor ε) (h : Host) (m : Clouds σ ε) :
    ∃ m' log, Clouds.step K E h m = .ok (m', log) ∧
      log.calls.length ≤ 1 ∧
      (log.calls.length = 1 ↔ (atRenderCheck h m).outputBuffer.empty = true) ∧
      ((atRenderCheck h m).outputBuffer.empty = false →
        m'.processor = m.processor ∧
        m'.inputSrc = m.inputSrc ∧ m'.inputSrc.ratio = m.inputSrc.ratio ∧
        m'.outputSrc = m.outputSrc ∧ m'.outputSrc.ratio = m.outputSrc.ratio ∧
        m'.inputBuffer.start = m.inputBuffer.start) := by
  cases hf : m.outputBuffer.frames with
  | nil =>
    obtain ⟨m', shifted, hs, -⟩ := step_of_empty hK E h m hf
    have he : (atRenderCheck h m).outputBuffer.empty = true := by
      rw [atRenderCheck_outputBuffer, empty_eq_true_iff]; exact hf
    refine ⟨m', _, hs, by simp, by simp [he], fun hne => ?_⟩
    rw [he] at hne
    cases hne
  | cons f fs =>
    have he : (atRenderCheck h m).outputBuffer.empty = false := by
      rw [atRenderCheck_outputBuffer, empty_eq_false_iff]; exact ⟨f, fs, hf⟩
    obtain ⟨h1, h2, h3, h4, -, -⟩ := atRenderCheck_fields h m
    refine ⟨_, _, step_of_nonempty K E h m f fs hf, by simp, by simp [he], fun _ => ?_⟩
    exact ⟨h1, h2, by rw [← h2], h3, by rw [← h3], h4⟩


/-! ## Full input buffer (C4), held outputs (C5), buffer safety (C3) -/

/-- C4: when the input ring buffer holds 256 frames at entry and the output ring
buffer is non-empty (no block is rendered), the host input frame of this tick
is dropped: the step succeeds, calls no engine, and leaves the input buffer with
the same 256 frames in the same order. -/
theorem full_input_drops_frame {σ ε : Type} (K : Resampler σ) (E : GranularProcessor ε)
    (h : Host) (m : Clouds σ ε) (hfull : m.inputBuffer.size = 256)
    (hstall : (atRenderCheck h m).outputBuffer.empty = false) :
    ∃ m' log, Clouds.step K E h m = .ok (m', log) ∧ log.calls = [] ∧
      m'.inputBuffer = m.inputBuffer ∧ m'.inputBuffer.frames = m.inputBuffer.frames ∧
      m'.inputBuffer.size = 256 := by
  rw [atRenderCheck_outputBuffer, empty_eq_false_iff] at hstall
  obtain ⟨f, fs, hf⟩ := hstall
  have hib : (atRenderCheck h m).inputBuffer = m.inputBuffer := by
    rw [atRenderCheck_inputBuffer, if_pos (by rw [hfull]; decide)]
  refine ⟨_, _, step_of_nonempty K E h m f fs hf, rfl, hib, ?_, ?_⟩
  · show (atRenderCheck h m).inputBuffer.frames = _
    rw [hib]
  · show (atRenderCheck h m).inputBuffer.size = _
    rw [hib, hfull]

theorem convertInput_ok_fields {σ ε : Type} {K : Resampler σ} {h : Host} {m m1 : Clouds σ ε}
    {input : List ShortFrame} (hc : convertInput K h m = .ok (m1, input)) :
    m1.triggered = m.triggered ∧ m1.OUT_L_OUTPUT = m.OUT_L_OUTPUT ∧
      m1.OUT_R_OUTPUT = m.OUT_R_OUTPUT := by
  unfold convertInput at hc
  dsimp only at hc
  split at hc
  · split at hc
    · cases hc
    · cases hc
      exact ⟨rfl, rfl, rfl⟩
  · cases hc

theorem convertOutput_ok_fields {σ ε : Type} {K : Resampler σ} {h : Host} {m m2 : Clouds σ ε}
    {output : List ShortFrame} (hc : convertOutput K h m output = .ok m2) :
    m2.triggered = m.triggered ∧ m2.OUT_L_OUTPUT = m.OUT_L_OUTPUT ∧
      m2.OUT_R_OUTPUT = m.OUT_R_OUTPUT := by
  unfold convertOutput at hc
  dsimp only at hc
  split at hc
  · cases hc
  · cases hc
    exact ⟨rfl, rfl, rfl⟩

/-- What a successful "Render frames" did, whatever the converter. -/
theorem render_ok_cases {σ ε : Type} {K : Resampler σ} {E : GranularProcessor ε} {h : Host}
    {m m' : Clouds σ ε} {calls : List ProcessCall} (hr : render K E h m = .ok (m', calls)) :
    (m.outputBuffer.empty = false ∧ m' = m ∧ calls = []) ∨
      (m.outputBuffer.empty = true ∧
        (∃ input, calls = [⟨parameters h m.triggered, input, 32⟩]) ∧
        m'.triggered = false ∧ m'.OUT_L_OUTPUT = m.OUT_L_OUTPUT ∧
        m'.OUT_R_OUTPUT = m.OUT_R_OUTPUT) := by
  cases he : m.outputBuffer.empty with
  | false =>
    rw [render_of_nonempty K E h m he] at hr
    cases hr
    exact Or.inl ⟨rfl, rfl, rfl⟩
  | true =>
    right
    unfold render at hr
    rw [if_pos he] at hr
    split at hr
    · cases hr
    · rename_i m1 input hci
      obtain ⟨t1, l1, r1⟩ := convertInput_ok_fields hci
      dsimp only at hr
      split at hr
      · cases hr
      · rename_i m2 hco
        obtain ⟨-, l2, r2⟩ := convertOutput_ok_fields hco
        cases hr
        refine ⟨rfl, ⟨input, by rw [t1]⟩, rfl, ?_, ?_⟩
        · show m2.OUT_L_OUTPUT = _
          rw [l2]; exact l1
        · show m2.OUT_R_OUTPUT = _
          rw [r2]; exact r1

theorem render_outputs {σ ε : Type} {K : Resampler σ} {E : GranularProcessor ε} {h : Host}
    {m m' : Clouds σ ε} {calls : List ProcessCall} (hr : render K E h m = .ok (m', calls)) :
    m'.OUT_L_OUTPUT = m.OUT_L_OUTPUT ∧ m'.OUT_R_OUTPUT = m.OUT_R_OUTPUT := by
  rcases render_ok_cases hr with ⟨-, rfl, -⟩ | ⟨-, -, -, hl, hr'⟩
  · exact ⟨rfl, rfl⟩
  · exact ⟨hl, hr'⟩

/-- C5 (as the code has it): when the output ring buffer is still empty after
the render phase, the step pops nothing and writes neither output port:
`OUT_L` and `OUT_R` keep the values they held before the step. -/
theorem outputs_held_when_still_empty {σ ε : Type} (K : Resampler σ) (E : GranularProcessor ε)
    (h : Host) (m m2 : Clouds σ ε) (calls : List ProcessCall)
    (hr : render K E h (atRenderCheck h m) = .ok (m2, calls))
    (he : m2.outputBuffer.empty = true) :
    Clouds.step K E h m = .ok (m2, ⟨calls, []⟩) ∧
      m2.OUT_L_OUTPUT = m.OUT_L_OUTPUT ∧ m2.OUT_R_OUTPUT = m.OUT_R_OUTPUT := by
  obtain ⟨hl, hr'⟩ := render_outputs hr
  obtain ⟨-, -, -, -, hL, hR⟩ := atRenderCheck_fields h m
  rw [empty_eq_true_iff] at he
  refine ⟨?_, by rw [hl, hL], by rw [hr', hR]⟩
  rw [step_eq, hr]
  simp only [he]

theorem step_preserves_bounds {σ ε : Type} {K : Resampler σ} (hK : K.Contract)
    (E : GranularProcessor ε) (h : Host) (m : Clouds σ ε)
    (hi : m.inputBuffer.size ≤ 256) (ho : m.outputBuffer.size ≤ 256) :
    ∃ m' log, Clouds.step K E h m = .ok (m', log) ∧
      m'.inputBuffer.size ≤ 256 ∧ m'.outputBuffer.size ≤ 256 := by
  have hq : (atRenderCheck h m).inputBuffer.size ≤ 256 := by
    rw [atRenderCheck_inputBuffer]
    split_ifs with hs
    · exact hi
    · simp only [DoubleRingBuffer.size, DoubleRingBuffer.S, List.length_append,
        List.length_singleton] at hs ⊢
      omega
  cases hf : m.outputBuffer.frames with
  | nil =>
    obtain ⟨m', shifted, hs, -, -, hib, -, hob, -, -⟩ := step_of_empty hK E h m hf
    refine ⟨m', _, hs, ?_, ?_⟩
    · rw [hib]
      simp only [DoubleRingBuffer.size, List.length_drop] at hq ⊢
      omega
    · have hb := (outputConversion_bounds hK h (atRenderCheck h m)
        (engineOutput K E h (atRenderCheck h m)).2).2
      simp only [DoubleRingBuffer.size, hob, List.length_tail]
      simp only [DoubleRingBuffer.capacity, DoubleRingBuffer.S] at hb
      omega
  | cons f fs =>
    refine ⟨_, _, step_of_nonempty K E h m f fs hf, hq, ?_⟩
    simp only [DoubleRingBuffer.size, hf, List.length_cons] at ho ⊢
    omega

theorem run_preserves_bounds {σ ε : Type} {K : Resampler σ} (hK : K.Contract)
    (E : GranularProcessor ε) (hs : List Host) :
    ∀ m : Clouds σ ε, m.inputBuffer.size ≤ 256 → m.outputBuffer.size ≤ 256 →
      ∃ m' logs, Clouds.run K E m hs = .ok (m', logs) ∧
        m'.inputBuffer.size ≤ 256 ∧ m'.outputBuffer.size ≤ 256 := by
  induction hs with
  | nil => intro m hi ho; exact ⟨m, [], rfl, hi, ho⟩
  | cons h hs ih =>
    intro m hi ho
    obtain ⟨m1, log, hs1, hi1, ho1⟩ := step_preserves_bounds hK E h m hi ho
    obtain ⟨m2, logs, hs2, hi2, ho2⟩ := ih m1 hi1 ho1
    refine ⟨m2, log :: logs, ?_, hi2, ho2⟩
    unfold Clouds.run
    rw [hs1]
    simp only [hs2]

/-- C3: with a converter that consumes at most the frames offered and produces
at most the capacity offered, every sequence of steps from empty ring buffers
runs without error and keeps both buffer sizes within `[0, 256]`.  The ring
buffer operations give an error exactly on `push` when full, `shift` when empty,
`startIncr` beyond the size and `endIncr` beyond the free capacity, so none of
these ever happens: CapacityExceeded and Underrun cannot occur. -/
theorem no_capacity_exceeded_no_underrun {σ ε : Type} {K : Resampler σ} (hK : K.Contract)
    (E : GranularProcessor ε) (inputSrc outputSrc : SampleRateConverter σ) (processor : ε)
    (hs : List Host) :
    (∃ m logs, Clouds.run K E (Clouds.init inputSrc outputSrc processor) hs = .ok (m, logs) ∧
      m.inputBuffer.size ≤ 256 ∧ m.outputBuffer.size ≤ 256) ∧
    (∀ (b : DoubleRingBuffer) (f : Frame),
      b.push f = .error .CapacityExceeded ↔ b.full = true) ∧
    (∀ b : DoubleRingBuffer, b.shift = .error .Underrun ↔ b.empty = true) ∧
    (∀ (b : DoubleRingBuffer) (n : Nat), b.startIncr n = .error .Underrun ↔ b.size < n) ∧
    (∀ (b : DoubleRingBuffer) (w : List Frame) (n : Nat),
      b.endIncr w n = .error .CapacityExceeded ↔ b.capacity < n) := by
  refine ⟨run_preserves_bounds hK E hs _ (Nat.zero_le _) (Nat.zero_le _), ?_, ?_, ?_, ?_⟩
  · intro b f
    unfold DoubleRingBuffer.push DoubleRingBuffer.full
    by_cases hb : DoubleRingBuffer.S ≤ b.size <;> simp [hb]
  · intro b
    rw [empty_eq_true_iff]
    unfold DoubleRingBuffer.shift
    cases hb : b.frames <;> simp
  · intro b n
    unfold DoubleRingBuffer.startIncr
    by_cases hb : n ≤ b.size
    · simp [hb]
    · simp [hb]; omega
  · intro b w n
    unfold DoubleRingBuffer.endIncr
    by_cases hb : n ≤ b.capacity
    · simp [hb]
    · simp [hb]; omega


/-! ## The trigger latch (C2) -/

theorem step_trigger {σ ε : Type} {K : Resampler σ} {E : GranularProcessor ε} {h : Host}
    {m m' : Clouds σ ε} {log : StepLog} (hs : Clouds.step K E h m = .ok (m', log)) :
    (log.calls = [] → m'.triggered = (m.triggered || h.gate)) ∧
      (∀ c ∈ log.calls, c.parameters.trigger = (m.triggered || h.gate) ∧
        m'.triggered = false) := by
  rw [step_eq] at hs
  cases hr : render K E h (atRenderCheck h m) with
  | error e => rw [hr] at hs; cases hs
  | ok res =>
    obtain ⟨m2, calls⟩ := res
    rw [hr] at hs
    have ht : m'.triggered = m2.triggered := by
      cases hs
      cases m2.outputBuffer.frames <;> rfl
    have hl : log.calls = calls := by cases hs; rfl
    rw [ht, hl]
    rcases render_ok_cases hr with ⟨-, rfl, rfl⟩ | ⟨-, ⟨input, rfl⟩, hf, -, -⟩
    · exact ⟨fun _ => atRenderCheck_triggered h m, fun c hc => by simp at hc⟩
    · refine ⟨fun hc => by simp at hc, fun c hc => ?_⟩
      simp only [List.mem_singleton] at hc
      subst hc
      exact ⟨atRenderCheck_triggered h m, hf⟩

theorem run_quiet_triggered {σ ε : Type} {K : Resampler σ} {E : GranularProcessor ε}
    (hs : List Host) :
    ∀ (m m' : Clouds σ ε) (logs : List StepLog), Clouds.run K E m hs = .ok (m', logs) →
      (∀ l ∈ logs, l.calls = []) → m'.triggered = (m.triggered || hs.any Host.gate) := by
  induction hs with
  | nil =>
    intro m m' logs hr _
    unfold Clouds.run at hr
    cases hr
    simp
  | cons h hs ih =>
    intro m m' logs hr hq
    unfold Clouds.run at hr
    cases h1 : Clouds.step K E h m with
    | error e => rw [h1] at hr; cases hr
    | ok r1 =>
      obtain ⟨m1, log⟩ := r1
      rw [h1] at hr
      dsimp only at hr
      cases h2 : Clouds.run K E m1 hs with
      | error e => rw [h2] at hr; cases hr
      | ok r2 =>
        obtain ⟨m2, logs2⟩ := r2
        rw [h2] at hr
        cases hr
        have hlog : log.calls = [] := hq log (List.mem_cons_self _ _)
        have hrest : ∀ l ∈ logs2, l.calls = [] := fun l hl => hq l (List.mem_cons_of_mem _ hl)
        rw [ih m1 _ _ h2 hrest, (step_trigger h1).1 hlog, List.any_cons, Bool.or_assoc]

/-- C2: take a step that invoked the engine, then any number of steps that did
not, then a step that invokes it again.  The trigger flag of this next
invocation is true exactly when the trigger input was at least 1.0 on one of
the steps after the earlier invocation, up to and including the invoking step;
the invocation clears the latch, so the one after it sees false unless the gate
was high again.  A step that does not invoke the engine never clears a set
latch. -/
theorem trigger_latched_until_consumed {σ ε : Type} {K : Resampler σ}
    {E : GranularProcessor ε} (m m₁ m₂ m₃ : Clouds σ ε) (h₀ h : Host) (hs : List Host)
    (l₁ l₃ : StepLog) (ls : List StepLog) (c : ProcessCall)
    (hfirst : Clouds.step K E h₀ m = .ok (m₁, l₁)) (hinvoked : l₁.calls ≠ [])
    (hmid : Clouds.run K E m₁ hs = .ok (m₂, ls)) (hquiet : ∀ l ∈ ls, l.calls = [])
    (hnext : Clouds.step K E h m₂ = .ok (m₃, l₃)) (hc : c ∈ l₃.calls) :
    c.parameters.trigger = (hs ++ [h]).any Host.gate ∧
      (c.parameters.trigger = true ↔ ∃ x ∈ hs ++ [h], x.TRIG_INPUT ≥ 1) ∧
      m₃.triggered = false ∧
      ∀ (a b : Clouds σ ε) (x : Host) (l : StepLog), Clouds.step K E x a = .ok (b, l) →
        l.calls = [] → a.triggered = true → b.triggered = true := by
  have h1 : m₁.triggered = false := by
    cases hl : l₁.calls with
    | nil => exact absurd hl hinvoked
    | cons c₁ cs => exact ((step_trigger hfirst).2 c₁ (by rw [hl]; exact List.mem_cons_self _ _)).2
  have h2 : m₂.triggered = hs.any Host.gate := by
    rw [run_quiet_triggered hs m₁ m₂ ls hmid hquiet, h1, Bool.false_or]
  obtain ⟨h3, h4⟩ := (step_trigger hnext).2 c hc
  have h5 : c.parameters.trigger = (hs ++ [h]).any Host.gate := by
    rw [h3, h2, List.any_append]
    simp
  refine ⟨h5, ?_, h4, ?_⟩
  · rw [h5, List.any_eq_true]
    simp only [Host.gate, decide_eq_true_eq]
  · intro a b x l hs' hl ha
    rw [(step_trigger hs').1 hl, ha, Bool.true_or]


/-! ## The phase-accumulator converter inside a render step (C6, C10) -/

theorem outputConversion_phase {ε : Type} (h : Host) (m : Clouds ℚ ε) (output : List ShortFrame)
    (r : ℚ) (hr : h.sampleRate / 32000 = r) (hr0 : 0 < r)
    (hp0 : 0 ≤ m.outputSrc.state) (hp1 : m.outputSrc.state < 1)
    (hfit : (⌊m.outputSrc.state + 32 * r⌋).toNat ≤ m.outputBuffer.capacity) :
    (outputConversion phaseResampler h m output).1.state
        = Int.fract (m.outputSrc.state + 32 * r) ∧
      (outputConversion phaseResampler h m output).2.1 = 32 ∧
      (outputConversion phaseResampler h m output).2.2.length
        = (⌊m.outputSrc.state + 32 * r⌋).toNat := by
  unfold outputConversion SampleRateConverter.process SampleRateConverter.setRatio
  rw [hr, if_pos hr0]
  have hl : ((outputFrames output).take 32).length = 32 := by
    rw [List.length_take, length_outputFrames]; rfl
  have hc : ((((outputFrames output).take 32).length : ℕ) : ℚ) = 32 := by
    rw [hl]; norm_num
  have := phaseResampler_fits r hr0.le ((outputFrames output).take 32) m.outputSrc.state
    m.outputBuffer.capacity hp0 hp1 (by rw [hc]; exact hfit)
  rw [hc, hl] at this
  exact this

/-- C6 (as the code has it, over the phase-accumulator converter): for a host
sample rate in `(0, 256000]`, so that the ratio `hostRate/32000` is at most 8,
the output converter of a render step consumes all 32 engine frames when
appending into the empty output ring buffer; no engine sample is dropped. -/
theorem output_block_fully_consumed {ε : Type} (E : GranularProcessor ε) (h : Host)
    (m : Clouds ℚ ε) (hpos : 0 < h.sampleRate) (hmax : h.sampleRate ≤ 256000)
    (hp0 : 0 ≤ m.outputSrc.state) (hp1 : m.outputSrc.state < 1)
    (he : (atRenderCheck h m).outputBuffer.empty = true) :
    (outputConversion phaseResampler h (atRenderCheck h m)
      (engineOutput phaseResampler E h (atRenderCheck h m)).2).2.1 = 32 := by
  obtain ⟨-, -, ho, -, -, -⟩ := atRenderCheck_fields h m
  have hcap : (atRenderCheck h m).outputBuffer.capacity = 256 := by
    rw [empty_eq_true_iff] at he
    simp [DoubleRingBuffer.capacity, DoubleRingBuffer.size, DoubleRingBuffer.S, he]
  have hr0 : 0 < h.sampleRate / 32000 := div_pos hpos (by norm_num)
  have hr8 : h.sampleRate / 32000 ≤ 8 := by
    rw [div_le_iff₀ (by norm_num)]; linarith
  refine (outputConversion_phase h (atRenderCheck h m) _ (h.sampleRate / 32000) rfl hr0
    (by rw [ho]; exact hp0) (by rw [ho]; exact hp1) ?_).2.1
  rw [hcap, ho]
  have hlt : ⌊m.outputSrc.state + 32 * (h.sampleRate / 32000)⌋ < 257 := by
    rw [Int.floor_lt]; push_cast; linarith
  omega


/-- C5 as stated fails: at a host rate of 500 Hz the 32 engine frames yield no
host frame, the output ring buffer stays empty, and the step leaves `OUT_L = 1`
and `OUT_R = -1` as they were instead of writing 0. -/
theorem silence_not_emitted :
    Clouds.step phaseResampler echoProcessor (Host.quiet 500) heldModule
        = .ok (heldModuleAfter, ⟨[silentCall (Host.quiet 500) false], []⟩) ∧
      heldModuleAfter.outputBuffer.empty = true ∧
      heldModuleAfter.OUT_L_OUTPUT ≠ 0 ∧ heldModuleAfter.OUT_R_OUTPUT ≠ 0 := by
  decide!

/-- C5 (as the code has it) on `heldModule` at 500 Hz. -/
theorem outputs_held_when_still_empty_witness :
    render phaseResampler echoProcessor (Host.quiet 500)
        (atRenderCheck (Host.quiet 500) heldModule)
        = .ok (heldModuleAfter, [silentCall (Host.quiet 500) false]) ∧
      heldModuleAfter.outputBuffer.empty = true ∧
      Clouds.step phaseResampler echoProcessor (Host.quiet 500) heldModule
        = .ok (heldModuleAfter, ⟨[silentCall (Host.quiet 500) false], []⟩) ∧
      heldModuleAfter.OUT_L_OUTPUT = heldModule.OUT_L_OUTPUT ∧
      heldModuleAfter.OUT_R_OUTPUT = heldModule.OUT_R_OUTPUT :=
  ⟨by decide!, by decide,
    outputs_held_when_still_empty phaseResampler echoProcessor (Host.quiet 500) heldModule
      heldModuleAfter [silentCall (Host.quiet 500) false] (by decide!) (by decide)⟩

/-- C6 as stated fails: at a host rate of 384000 the ratio is 12, the 256 free
slots take the output of 21 engine frames only, and the converter reports 21
consumed frames, not 32. -/
theorem engine_frames_dropped_at_384k :
    (0 : ℚ) < (Host.quiet 384000).sampleRate ∧
      (atRenderCheck (Host.quiet 384000) Clouds.fresh).outputBuffer.empty = true ∧
      (outputConversion phaseResampler (Host.quiet 384000)
        (atRenderCheck (Host.quiet 384000) Clouds.fresh)
        (engineOutput phaseResampler echoProcessor (Host.quiet 384000)
          (atRenderCheck (Host.quiet 384000) Clouds.fresh)).2).2.1 = 21 ∧
      (outputConversion phaseResampler (Host.quiet 384000)
        (atRenderCheck (Host.quiet 384000) Clouds.fresh)
        (engineOutput phaseResampler echoProcessor (Host.quiet 384000)
          (atRenderCheck (Host.quiet 384000) Clouds.fresh)).2).2.1 ≠ 32 := by
  decide!

/-- C6 (as the code has it) on a fresh module at 48 kHz. -/
theorem output_block_fully_consumed_witness :
    (0 : ℚ) < (Host.quiet 48000).sampleRate ∧ (Host.quiet 48000).sampleRate ≤ 256000 ∧
      (0 : ℚ) ≤ Clouds.fresh.outputSrc.state ∧ Clouds.fresh.outputSrc.state < 1 ∧
      (atRenderCheck (Host.quiet 48000) Clouds.fresh).outputBuffer.empty = true ∧
      (outputConversion phaseResampler (Host.quiet 48000)
        (atRenderCheck (Host.quiet 48000) Clouds.fresh)
        (engineOutput phaseResampler echoProcessor (Host.quiet 48000)
          (atRenderCheck (Host.quiet 48000) Clouds.fresh)).2).2.1 = 32 :=
  ⟨by decide!, by decide!, by decide!, by decide!, by decide!,
    output_block_fully_consumed echoProcessor (Host.quiet 48000) Clouds.fresh
      (by decide!) (by decide!) (by decide!) (by decide!) (by decide!)⟩

/-- C8 as stated fails: the converter hands on the sample `32769/65536`; the
product `32767 * 32769/65536 = 16384 - 1/65536` has no 32-bit float and is
narrowed to `16384`, so the engine receives `16384`, while the truncation toward
zero of `clamp(32767 * x, -32768, 32767)` is `16383`. -/
theorem exact_truncation_fails :
    (inputConversion phaseResampler roundingTick (atRenderCheck roundingTick Clouds.fresh)).2.2
        = [⟨32769 / 65536, 0⟩] ∧
      Clouds.step phaseResampler echoProcessor roundingTick Clouds.fresh
        = .ok (roundingAfter,
            ⟨[⟨parameters roundingTick false, ⟨16384, 0⟩ :: List.replicate 31 ⟨0, 0⟩, 32⟩],
              [⟨1 / 2, 0⟩]⟩) ∧
      clampf (32767 * (32769 / 65536)) (-32768) 32767 = 1073741823 / 65536 ∧
      ⌊clampf (32767 * (32769 / 65536)) (-32768) 32767⌋ = 16383 ∧
      toShort (clampf (32767 * (32769 / 65536)) (-32768) 32767) = 16383 := by
  decide!

/-- C8 (as the code has it) on `saturatedModule` at the engine rate: the queued
frame `(3/2, -2)` reaches the engine as `(32767, -32768)`. -/
theorem engine_samples_saturate_witness :
    Resampler.Contract phaseResampler ∧
    (atRenderCheck (Host.quiet 32000) saturatedModule).outputBuffer.empty = true ∧
    (inputConversion phaseResampler (Host.quiet 32000)
        (atRenderCheck (Host.quiet 32000) saturatedModule)).2.2
      = [⟨3 / 2, -2⟩, ⟨0, 0⟩] ∧
    Clouds.step phaseResampler echoProcessor (Host.quiet 32000) saturatedModule
      = .ok (saturatedAfter,
          ⟨[⟨parameters (Host.quiet 32000) false,
              ⟨32767, -32768⟩ :: List.replicate 31 ⟨0, 0⟩, 32⟩],
            [⟨32767 / 32768, -1⟩]⟩) ∧
    ∃ m' shifted call,
      Clouds.step phaseResampler echoProcessor (Host.quiet 32000) saturatedModule
        = .ok (m', ⟨[call], shifted⟩) ∧
      ∀ (i : Nat) (f : Frame), (inputConversion phaseResampler (Host.quiet 32000)
          (atRenderCheck (Host.quiet 32000) saturatedModule)).2.2[i]? = some f →
        ∃ z : ShortFrame, call.input[i]? = some z ∧
          ∀ (x : ℚ) (q : Int), (x = f.samples0 ∧ q = z.l) ∨ (x = f.samples1 ∧ q = z.r) →
            q = (if 0 ≤ clampf (toFloat (x * 32767)) (-32768) 32767
                 then ⌊clampf (toFloat (x * 32767)) (-32768) 32767⌋
                 else ⌈clampf (toFloat (x * 32767)) (-32768) 32767⌉) ∧
            -32768 ≤ q ∧ q ≤ 32767 ∧
            (1 ≤ x → q = 32767) ∧
            (x ≤ -32768 / 32767 → q = -32768) :=
  ⟨phaseResampler_contract, by decide!, by decide!, by decide!,
    engine_samples_saturate phaseResampler_contract echoProcessor (Host.quiet 32000)
      saturatedModule (by decide!)⟩

/-- C4 on `stalledModule`: the host frame `(1, 1)` of `loudTick` is dropped. -/
theorem full_input_drops_frame_witness :
    stalledModule.inputBuffer.size = 256 ∧
      (atRenderCheck loudTick stalledModule).outputBuffer.empty = false ∧
      ∃ m' log, Clouds.step phaseResampler echoProcessor loudTick stalledModule = .ok (m', log) ∧
        log.calls = [] ∧ m'.inputBuffer = stalledModule.inputBuffer ∧
        m'.inputBuffer.frames = stalledModule.inputBuffer.frames ∧
        m'.inputBuffer.size = 256 :=
  ⟨by decide!, by decide!,
    full_input_drops_frame phaseResampler echoProcessor loudTick stalledModule
      (by decide!) (by decide!)⟩

/-- C3 on a fresh module over three ticks at 48 kHz. -/
theorem no_capacity_exceeded_no_underrun_witness :
    Resampler.Contract phaseResampler ∧
      ∃ m logs, Clouds.run phaseResampler echoProcessor (Clouds.init ⟨1, 0⟩ ⟨1, 0⟩ 0)
          [loudTick, Host.quiet 48000, loudTick] = .ok (m, logs) ∧
        m.inputBuffer.size ≤ 256 ∧ m.outputBuffer.size ≤ 256 :=
  ⟨phaseResampler_contract,
    (no_capacity_exceeded_no_underrun phaseResampler_contract echoProcessor ⟨1, 0⟩ ⟨1, 0⟩ 0
      [loudTick, Host.quiet 48000, loudTick]).1⟩

/-- C9 on a fresh module (a render step) at 48 kHz. -/
theorem engine_called_iff_output_empty_witness :
    Resampler.Contract phaseResampler ∧
      ∃ m' log, Clouds.step phaseResampler echoProcessor (Host.quiet 48000) Clouds.fresh
          = .ok (m', log) ∧
        log.calls.length ≤ 1 ∧
        (log.calls.length = 1 ↔
          (atRenderCheck (Host.quiet 48000) Clouds.fresh).outputBuffer.empty = true) ∧
        ((atRenderCheck (Host.quiet 48000) Clouds.fresh).outputBuffer.empty = false →
          m'.processor = Clouds.fresh.processor ∧
          m'.inputSrc = Clouds.fresh.inputSrc ∧
          m'.inputSrc.ratio = Clouds.fresh.inputSrc.ratio ∧
          m'.outputSrc = Clouds.fresh.outputSrc ∧
          m'.outputSrc.ratio = Clouds.fresh.outputSrc.ratio ∧
          m'.inputBuffer.start = Clouds.fresh.inputBuffer.start) :=
  ⟨phaseResampler_contract,
    engine_called_iff_output_empty phaseResampler_contract echoProcessor (Host.quiet 48000)
      Clouds.fresh⟩

/-- C2 at 2 kHz: a render step, then a step with the gate high that does not
render, then a quiet render step, whose engine call sees `trigger = true`. -/
theorem trigger_latched_until_consumed_witness :
    Clouds.step phaseResampler echoProcessor (Host.quiet 2000) Clouds.fresh
        = .ok (latchDemo₁, ⟨[silentCall (Host.quiet 2000) false], [⟨0, 0⟩]⟩) ∧
      Clouds.run phaseResampler echoProcessor latchDemo₁ [gateTick]
        = .ok (latchDemo₂, [⟨[], [⟨0, 0⟩]⟩]) ∧
      Clouds.step phaseResampler echoProcessor (Host.quiet 2000) latchDemo₂
        = .ok (latchDemo₃, ⟨[silentCall (Host.quiet 2000) true], [⟨0, 0⟩]⟩) ∧
      (silentCall (Host.quiet 2000) true).parameters.trigger = true ∧
      (silentCall (Host.quiet 2000) true).parameters.trigger
        = ([gateTick] ++ [Host.quiet 2000]).any Host.gate ∧
      latchDemo₃.triggered = false :=
  ⟨by decide!, by decide!, by decide!, rfl,
    (trigger_latched_until_consumed (K := phaseResampler) (E := echoProcessor)
      Clouds.fresh latchDemo₁ latchDemo₂ latchDemo₃ (Host.quiet 2000) (Host.quiet 2000)
      [gateTick] ⟨[silentCall (Host.quiet 2000) false], [⟨0, 0⟩]⟩
      ⟨[silentCall (Host.quiet 2000) true], [⟨0, 0⟩]⟩ [⟨[], [⟨0, 0⟩]⟩]
      (silentCall (Host.quiet 2000) true)
      (by decide!) (by decide) (by decide!) (by decide) (by decide!) (List.mem_cons_self _ _)).1,
    (trigger_latched_until_consumed (K := phaseResampler) (E := echoProcessor)
      Clouds.fresh latchDemo₁ latchDemo₂ latchDemo₃ (Host.quiet 2000) (Host.quiet 2000)
      [gateTick] ⟨[silentCall (Host.quiet 2000) false], [⟨0, 0⟩]⟩
      ⟨[silentCall (Host.quiet 2000) true], [⟨0, 0⟩]⟩ [⟨[], [⟨0, 0⟩]⟩]
      (silentCall (Host.quiet 2000) true)
      (by decide!) (by decide) (by decide!) (by decide) (by decide!) (List.mem_cons_self _ _)).2.2.1⟩

end AudibleInstruments
